import Mathlib

/-! A verification model of `imgui_freetype.cpp`.

The glyph-atlas builder of gpuvis (`src/imgui/imgui_freetype.cpp`) is embedded
as pure Lean functions and its specification is checked against them.

Conventions of the embedding

* `float` values are rationals (`ℚ`).  The brightening of the blit rounds its
  sum and its product to single precision (`float32`: 24 bits of precision,
  round to nearest, ties to even; the exponent range is not bounded).  The
  other float computations are exact: their operands are whole numbers or the
  claims do not depend on their rounding.  `ceilf` is `Int.ceil`, a C cast
  `(int)x` is truncation toward zero.
* `int` values are `Int`; signed overflow (undefined in C++) is not modelled.
  Unsigned conversions that the source performs are written with an explicit
  remainder (`% 65536`, `% 2 ^ 32`).
* A failed `IM_ASSERT` ends the run: functions that contain one return
  `Except Abort _`.
* Raw memory (the texture, a glyph bitmap) is a function from byte offset to
  byte value.
* The font engine (FreeType) and the rectangle packer (stb_rect_pack) are
  external: what they answer is an input of the model.
-/

namespace ImGuiFreeType

/-! ## Fixed point helpers -/

/-- The macro `FT_FLOOR( X )`: `( X & -64 ) / 64`. -/
def FT_FLOOR (X : Int) : Int := Int.tdiv (Int.land X (-64)) 64

/-- The macro `FT_CEIL( X )`: `( ( X + 63 ) & -64 ) / 64`. -/
def FT_CEIL (X : Int) : Int := Int.tdiv (Int.land (X + 63) (-64)) 64

/-- A C cast `(int)x` of a float: truncation toward zero. -/
def truncToInt (q : ℚ) : Int := if 0 ≤ q then ⌊q⌋ else ⌈q⌉

/-- Rounding to the nearest integer, a tie going to the even neighbour. -/
def roundEven (q : ℚ) : Int :=
  if q - (⌊q⌋ : ℚ) < 1 / 2 then ⌊q⌋
  else if 1 / 2 < q - (⌊q⌋ : ℚ) then ⌊q⌋ + 1
  else if ⌊q⌋ % 2 = 0 then ⌊q⌋ else ⌊q⌋ + 1

/-- Single precision rounding of a positive number: with `2 ^ e <= q < 2 ^ (e + 1)`
the result is the multiple of `2 ^ (e - 23)` nearest to `q`, ties to even. -/
def float32Pos (q : ℚ) : ℚ :=
  ((roundEven (q / (2 : ℚ) ^ (Int.log 2 q - 23)) : Int) : ℚ) * (2 : ℚ) ^ (Int.log 2 q - 23)

/-- The value a `float` operation stores for the exact result `q`: rounding to
24 bits of precision, to nearest, ties to even. -/
def float32 (q : ℚ) : ℚ :=
  if q = 0 then 0 else if 0 < q then float32Pos q else -float32Pos (-q)

/-- The function `ceilf`. -/
def ceilf (q : ℚ) : ℚ := ((⌈q⌉ : Int) : ℚ)

/-- The library call `memcpy( dst + dstOff, src + srcOff, n )` on byte memories. -/
def memcpy (dst : Nat → Nat) (dstOff : Nat) (src : Nat → Nat) (srcOff n : Nat) : Nat → Nat :=
  fun k => if dstOff ≤ k ∧ k < dstOff + n then src (srcOff + (k - dstOff)) else dst k

/-- A failed `IM_ASSERT`, named after the asserted condition. -/
inductive Abort where
  | configDataEmpty
  | dstFontInvalid
  | initFreeType
  | newMemoryFace
  | selectCharmap
  | notOutline
  | pitchExceedsMaxWidth
  deriving DecidableEq, Repr

/-! ## Rasterized glyphs -/

/-- The struct `GlyphBitmap`: a rasterized glyph image (8-bit alpha coverage). -/
structure GlyphBitmap where
  width : Nat
  height : Nat
  pitch : Nat
  grayscale : Nat → Nat

/-- The constant `GlyphBitmap::MaxWidth`. -/
def GlyphBitmap.MaxWidth : Nat := 256

/-- The constant `GlyphBitmap::MaxHeight`. -/
def GlyphBitmap.MaxHeight : Nat := 256

/-- The struct `GlyphInfo`. -/
structure GlyphInfo where
  width : ℚ
  height : ℚ
  offsetX : ℚ
  offsetY : ℚ
  advanceX : ℚ
  bmp : GlyphBitmap

/-- The bitmap the font engine hands back (`FT_Bitmap`); `buffer = none` is a
null pointer. -/
structure FT_Bitmap where
  rows : Nat
  width : Nat
  pitch : Int
  buffer : Option (Nat → Nat)

/-- What the font engine answers for one codepoint of one face: the outcome of
`FT_Get_Char_Index`, `FT_Load_Glyph`, the optional oblique and embolden passes,
`FT_Get_Glyph` and `FT_Glyph_To_Bitmap`. -/
structure FT_GlyphAnswer where
  loadError : Bool
  formatIsOutline : Bool
  getGlyphError : Bool
  toBitmapError : Bool
  advance_x : Int
  left : Int
  top : Int
  bitmap : FT_Bitmap

/-- What the font engine answers for one font configuration: the error codes of
the three set-up calls, the size metrics in 26.6 fixed point and the glyphs. -/
structure FT_FaceAnswer where
  initFreeTypeError : Bool
  newMemoryFaceError : Bool
  selectCharmapError : Bool
  ascender : Int
  descender : Int
  max_advance : Int
  glyph : Nat → FT_GlyphAnswer

/-- The class `FreeTypeFont` (the members the atlas builder reads). -/
structure FreeTypeFont where
  m_ascender : ℚ
  m_descender : ℚ
  m_maxAdvanceWidth : ℚ
  m_face : FT_FaceAnswer

/-- The method `FreeTypeFont::Init`.  The load flags and the bold and oblique
switches only steer the external engine and are part of its answer. -/
def FreeTypeFont.Init (face : FT_FaceAnswer) : Except Abort FreeTypeFont :=
  if face.initFreeTypeError then Except.error Abort.initFreeType
  else if face.newMemoryFaceError then Except.error Abort.newMemoryFace
  else if face.selectCharmapError then Except.error Abort.selectCharmap
  else Except.ok
    { m_ascender := ((FT_CEIL face.ascender : Int) : ℚ)
      m_descender := ((FT_CEIL face.descender : Int) : ℚ)
      m_maxAdvanceWidth := ((FT_CEIL face.max_advance : Int) : ℚ)
      m_face := face }

/-- The result of one call of `RasterizeGlyph`: the returned flag, the glyph
record it filled in, and the number of bytes its `memcpy` wrote to the fixed
`grayscale` array (zero when no copy took place). -/
structure Rasterized where
  ret : Bool
  glyphInfo : GlyphInfo
  copied : Nat

/-- The method `FreeTypeFont::RasterizeGlyph`. -/
def FreeTypeFont.RasterizeGlyph (font : FreeTypeFont) (codepoint : Nat) (glyphInfo : GlyphInfo) :
    Except Abort Rasterized :=
  let g := font.m_face.glyph codepoint
  let cleared : GlyphInfo :=
    { glyphInfo with bmp := { glyphInfo.bmp with width := 0, height := 0, pitch := 0 } }
  if g.loadError then Except.ok { ret := false, glyphInfo := cleared, copied := 0 }
  else if !g.formatIsOutline then Except.error Abort.notOutline
  else if g.getGlyphError then Except.ok { ret := false, glyphInfo := cleared, copied := 0 }
  else if g.toBitmapError then Except.ok { ret := false, glyphInfo := cleared, copied := 0 }
  else
    let pitch : Nat := (g.bitmap.pitch % 2 ^ 32).toNat
    let width : Nat := g.bitmap.width % 2 ^ 32
    let height : Nat := g.bitmap.rows % 2 ^ 32
    if GlyphBitmap.MaxWidth < pitch then Except.error Abort.pitchExceedsMaxWidth
    else
      let n : Nat := (pitch * height) % 2 ^ 32
      let doCopy : Bool := g.bitmap.width != 0 && g.bitmap.buffer.isSome
      let pixels : Nat → Nat :=
        match g.bitmap.buffer with
        | some buf => if g.bitmap.width != 0 then memcpy glyphInfo.bmp.grayscale 0 buf 0 n
                      else glyphInfo.bmp.grayscale
        | none => glyphInfo.bmp.grayscale
      Except.ok
        { ret := true
          glyphInfo :=
            { advanceX := (g.advance_x : ℚ) * (1 / 64)
              offsetX := (g.left : ℚ)
              offsetY := -(g.top : ℚ)
              width := (g.bitmap.width : ℚ)
              height := (g.bitmap.rows : ℚ)
              bmp := { width := width, height := height, pitch := pitch, grayscale := pixels } }
          copied := if doCopy then n else 0 }

/-! ## The atlas, its fonts and the external collaborators -/

/-- The struct `ImFont::Glyph`. -/
structure Glyph where
  Codepoint : Nat
  XAdvance : ℚ
  X0 : ℚ
  Y0 : ℚ
  X1 : ℚ
  Y1 : ℚ
  U0 : ℚ
  V0 : ℚ
  U1 : ℚ
  V1 : ℚ

/-- The value of an `ImFontAtlas *`: null, the atlas being built, or another atlas. -/
inductive AtlasRef where
  | null
  | this
  | other
  deriving DecidableEq, Repr

/-- The struct `ImFont` (the members the atlas builder touches).  `IndexLookup`
holds the codepoints the lookup table maps to a glyph; `FallbackGlyph` tells
whether the fallback pointer is non-null. -/
structure ImFont where
  FontSize : ℚ
  Ascent : ℚ
  Descent : ℚ
  ConfigDataCount : Int
  ContainerAtlas : AtlasRef
  Glyphs : List Glyph
  IndexLookup : List Nat
  FallbackGlyph : Bool
  FallbackChar : Nat

/-- Modelled from the spec: `ImFont::FindGlyph` (imgui_draw.cpp) is not among the
sources.  It is the "find glyph by codepoint" query: it answers from the lookup
table, which only `BuildLookupTable` rebuilds, and otherwise with the fallback
glyph.  The result tells whether the returned pointer is non-null. -/
def ImFont.FindGlyph (f : ImFont) (c : Nat) : Bool :=
  decide (c ∈ f.IndexLookup) || f.FallbackGlyph

/-- Modelled from the spec: `ImFont::BuildLookupTable` (imgui_draw.cpp) is not
among the sources.  It rebuilds the lookup table so that lookups reflect the
glyphs of the table, and recomputes the fallback glyph. -/
def ImFont.BuildLookupTable (f : ImFont) : ImFont :=
  { f with
    IndexLookup := f.Glyphs.map Glyph.Codepoint
    FallbackGlyph := decide (f.FallbackChar ∈ f.Glyphs.map Glyph.Codepoint) }

/-- Modelled from the spec: `ImFont::IsLoaded` (imgui.h) is not among the
sources; a font is loaded once it belongs to an atlas. -/
def ImFont.IsLoaded (f : ImFont) : Bool := f.ContainerAtlas != AtlasRef.null

/-- The struct `ImFontConfig` (the members the atlas builder reads).  `FontData`
stands for the font file together with size, face index and style flags: it is
what the font engine answers for them.  `GlyphRanges` is the zero-terminated
array of inclusive pairs, `none` a null pointer; `DstFont` is the position of
the destination font in the atlas, `none` a null pointer. -/
structure ImFontConfig where
  FontData : FT_FaceAnswer
  SizePixels : ℚ
  GlyphRanges : Option (List Nat)
  DstFont : Option Nat
  MergeMode : Bool
  MergeGlyphCenterV : Bool
  GlyphExtraSpacing_x : ℚ
  Brighten : ℚ
  PixelSnapH : Bool

/-- The struct `stbrp_rect` of the rectangle packer. -/
structure stbrp_rect where
  id : Int
  w : Nat
  h : Nat
  x : Nat
  y : Nat
  was_packed : Bool

/-- The struct `ImFontAtlas` (the members the atlas builder touches). -/
structure ImFontAtlas where
  TexDesiredWidth : Int
  TexWidth : Int
  TexHeight : Int
  TexPixelsAlpha8 : Option (Nat → Nat)
  ConfigData : List ImFontConfig
  Fonts : List ImFont

/-- The external collaborators of one build, with `σ` the packer context:
`stbrp_init_target` and `stbrp_pack_rects` of the rectangle packer, the
rectangles `RenderCustomTexData( 0, ... )` reserves, the painting done by
`RenderCustomTexData( 1, ... )`, the default glyph ranges, and the indeterminate
first contents of the local variable `glyphInfo`. -/
structure External (σ : Type) where
  stbrp_init_target : Int → Int → Int → σ
  stbrp_pack_rects : σ → List stbrp_rect → σ × List stbrp_rect
  customRects : List stbrp_rect
  renderCustom : Int → Int → List stbrp_rect → (Nat → Nat) → (Nat → Nat)
  GetGlyphRangesDefault : List Nat
  glyphInfo0 : GlyphInfo

/-- The search behind `ImUpperPowerOfTwo`: the first of `p, 2p, 4p, ...` that
reaches `v`. -/
def upperPowerOfTwoFrom (v : Nat) : Nat → Nat → Nat
  | 0, p => p
  | fuel + 1, p => if v ≤ p then p else upperPowerOfTwoFrom v fuel (2 * p)

/-- Modelled from the spec: `ImUpperPowerOfTwo` (imgui_internal.h) is not among
the sources.  It rounds up to the next power of two: the least power of two
that is not below `v`. -/
def ImUpperPowerOfTwo (v : Int) : Int := ((upperPowerOfTwoFrom v.toNat v.toNat 1 : Nat) : Int)

/-! ## `BuildFontAtlas`, first pass: faces, glyph count, texture size -/

/-- The glyph-counting loop
`for ( in_range = cfg.GlyphRanges; in_range[ 0 ] && in_range[ 1 ]; in_range += 2 )
  total_glyph_count += ( in_range[ 1 ] - in_range[ 0 ] ) + 1;`. -/
def countGlyphs : List Nat → Int → Int
  | lo :: hi :: rest, total =>
    if lo ≠ 0 ∧ hi ≠ 0 then countGlyphs rest (total + (((hi : Int) - (lo : Int)) + 1)) else total
  | _, total => total

/-- The running values of the first loop of `BuildFontAtlas`. -/
structure Survey where
  maxGlyphSize_x : ℚ
  maxGlyphSize_y : ℚ
  total_glyph_count : Int
  fonts : List FreeTypeFont
  ConfigData : List ImFontConfig

/-- The glyph ranges of a configuration once a null pointer has been replaced
by the default ranges. -/
def ImFontConfig.ranges (cfg : ImFontConfig) : List Nat := cfg.GlyphRanges.getD []

/-- One round of the first loop of `BuildFontAtlas`. -/
def surveyConfig (GetGlyphRangesDefault : List Nat) (Fonts : List ImFont) (s : Survey)
    (cfg : ImFontConfig) : Except Abort Survey :=
  match cfg.DstFont with
  | none => Except.error Abort.dstFontInvalid
  | some i =>
    match Fonts.get? i with
    | none => Except.error Abort.dstFontInvalid
    | some dst =>
      if dst.IsLoaded && dst.ContainerAtlas != AtlasRef.this then Except.error Abort.dstFontInvalid
      else
        match FreeTypeFont.Init cfg.FontData with
        | Except.error e => Except.error e
        | Except.ok fontFace =>
          let ranges : List Nat :=
            match cfg.GlyphRanges with
            | none => GetGlyphRangesDefault
            | some r => r
          Except.ok
            { maxGlyphSize_x := max s.maxGlyphSize_x fontFace.m_maxAdvanceWidth
              maxGlyphSize_y := max s.maxGlyphSize_y (fontFace.m_ascender - fontFace.m_descender)
              total_glyph_count := countGlyphs ranges s.total_glyph_count
              fonts := s.fonts ++ [fontFace]
              ConfigData := s.ConfigData ++ [{ cfg with GlyphRanges := some ranges }] }

/-- The first loop of `BuildFontAtlas`. -/
def surveyLoop (GetGlyphRangesDefault : List Nat) (Fonts : List ImFont) :
    List ImFontConfig → Survey → Except Abort Survey
  | [], s => Except.ok s
  | cfg :: rest, s =>
    match surveyConfig GetGlyphRangesDefault Fonts s cfg with
    | Except.error e => Except.error e
    | Except.ok s1 => surveyLoop GetGlyphRangesDefault Fonts rest s1

/-- The choice of `atlas->TexWidth`. -/
def chooseTexWidth (TexDesiredWidth total_glyph_count : Int) : Int :=
  if TexDesiredWidth > 0 then TexDesiredWidth
  else if total_glyph_count > 4000 then 4096
  else if total_glyph_count > 2000 then 2048
  else if total_glyph_count > 1000 then 1024
  else 512

/-- The rough estimate of `atlas->TexHeight`, before the reserved rectangles
are packed. -/
def estimateTexHeight (TexWidth : Int) (maxGlyphSize_x maxGlyphSize_y : ℚ) (TotalRects : Int) :
    Int :=
  let MinRectsPerRow : ℚ := ceilf ((TexWidth : ℚ) / (maxGlyphSize_x + 1))
  let MinRectsPerColumn : ℚ := ceilf ((TotalRects : ℚ) / MinRectsPerRow)
  ImUpperPowerOfTwo (truncToInt (MinRectsPerColumn * (maxGlyphSize_y + 1)))

/-- The loop that grows `atlas->TexHeight` over the packed reserved rectangles. -/
def growTexHeight (TexHeight : Int) (extra_rects : List stbrp_rect) : Int :=
  extra_rects.foldl
    (fun (hgt : Int) (r : stbrp_rect) =>
      if r.was_packed then max hgt (((r.y + r.h : Nat) : Int)) else hgt)
    TexHeight

/-! ## `BuildFontAtlas`, second pass: rasterize, pack, blit, record -/

/-- The brightened pixel `std::min< uint32_t >( 255, src[ xx ] * brighten )`: the
product is a `float`, which is converted to `uint32_t` and capped. -/
def brightenByte (brighten : ℚ) (s : Nat) : Nat :=
  min 255 ((truncToInt (float32 ((s : ℚ) * brighten))).toNat % 2 ^ 32)

/-- One round of the row loop of the blit: a byte copy of `width` bytes when
`cfg.Brighten == 0.0f`; otherwise `float brighten = cfg.Brighten + 1.0f` and the
brightening loop over `xx`. -/
def blitRow (Brighten : ℚ) (width : Nat) (src : Nat → Nat) (srcOff : Nat) (dst : Nat → Nat)
    (dstOff : Nat) : Nat → Nat :=
  if Brighten = 0 then memcpy dst dstOff src srcOff width
  else
    (List.range width).foldl
      (fun (d : Nat → Nat) (xx : Nat) =>
        Function.update d (dstOff + xx)
          (brightenByte (float32 (Brighten + 1)) (src (srcOff + xx))))
      dst

/-- The row loop of the blit: `src` advances by the bitmap pitch and `dst` by
the texture width after every row. -/
def blit (Brighten : ℚ) (bmp : GlyphBitmap) (TexWidth : Nat) (tex : Nat → Nat) (dst0 : Nat) :
    Nat → Nat :=
  (List.range bmp.height).foldl
    (fun (t : Nat → Nat) (yy : Nat) =>
      blitRow Brighten bmp.width bmp.grayscale (yy * bmp.pitch) t (dst0 + yy * TexWidth))
    tex

/-- The state the glyph loops carry: the packer context, the texture bytes,
the destination font and the local variable `glyphInfo`. -/
structure GlyphLoop (σ : Type) where
  context : σ
  tex : Nat → Nat
  dst_font : ImFont
  glyphInfo : GlyphInfo

/-- The rectangle requested for a rasterized glyph; the members the source
leaves unset are zero. -/
def glyphRect (glyphInfo : GlyphInfo) : stbrp_rect :=
  { id := 0
    w := (glyphInfo.bmp.width % 65536 + 1) % 65536
    h := (glyphInfo.bmp.height % 65536 + 1) % 65536
    x := 0
    y := 0
    was_packed := false }

/-- The glyph record appended for a codepoint. -/
def makeGlyph (TexWidth TexHeight : Int) (cfg : ImFontConfig) (dst_font : ImFont) (off_y : ℚ)
    (glyphInfo : GlyphInfo) (rect : stbrp_rect) (codepoint : Nat) : Glyph :=
  let shift : ℚ := ((truncToInt (dst_font.Ascent + off_y + 1 / 2) : Int) : ℚ)
  let adv : ℚ := glyphInfo.advanceX + cfg.GlyphExtraSpacing_x
  { Codepoint := codepoint % 65536
    X0 := glyphInfo.offsetX
    Y0 := glyphInfo.offsetY + shift
    X1 := glyphInfo.offsetX + glyphInfo.width
    Y1 := glyphInfo.offsetY + glyphInfo.height + shift
    U0 := (rect.x : ℚ) / (TexWidth : ℚ)
    V0 := (rect.y : ℚ) / (TexHeight : ℚ)
    U1 := ((rect.x : ℚ) + glyphInfo.width) / (TexWidth : ℚ)
    V1 := ((rect.y : ℚ) + glyphInfo.height) / (TexHeight : ℚ)
    XAdvance := if cfg.PixelSnapH then ((truncToInt (adv + 1 / 2) : Int) : ℚ) else adv }

/-- The body of the codepoint loop of `BuildFontAtlas`. -/
def addGlyph {σ : Type} (ext : External σ) (TexWidth TexHeight : Int) (cfg : ImFontConfig)
    (fontFace : FreeTypeFont) (off_y : ℚ) (st : GlyphLoop σ) (codepoint : Nat) :
    Except Abort (GlyphLoop σ) :=
  if cfg.MergeMode && st.dst_font.FindGlyph (codepoint % 65536) then Except.ok st
  else
    match fontFace.RasterizeGlyph codepoint st.glyphInfo with
    | Except.error e => Except.error e
    | Except.ok r =>
      let glyphInfo := r.glyphInfo
      let request := glyphRect glyphInfo
      let packed := ext.stbrp_pack_rects st.context [request]
      let rect := packed.2.headD request
      let dst0 : Nat := (((rect.y : Int) * TexWidth + (rect.x : Int))).toNat
      Except.ok
        { context := packed.1
          tex := blit cfg.Brighten glyphInfo.bmp TexWidth.toNat st.tex dst0
          dst_font :=
            { st.dst_font with
              Glyphs := st.dst_font.Glyphs ++
                [makeGlyph TexWidth TexHeight cfg st.dst_font off_y glyphInfo rect codepoint] }
          glyphInfo := glyphInfo }

/-- The codepoint loop run over a list of codepoints. -/
def addGlyphs {σ : Type} (ext : External σ) (TexWidth TexHeight : Int) (cfg : ImFontConfig)
    (fontFace : FreeTypeFont) (off_y : ℚ) : List Nat → GlyphLoop σ → Except Abort (GlyphLoop σ)
  | [], st => Except.ok st
  | c :: cs, st =>
    match addGlyph ext TexWidth TexHeight cfg fontFace off_y st c with
    | Except.error e => Except.error e
    | Except.ok st1 => addGlyphs ext TexWidth TexHeight cfg fontFace off_y cs st1

/-- The codepoints `for ( codepoint = in_range[ 0 ]; codepoint <= in_range[ 1 ]; ++codepoint )`
visits. -/
def rangeCodepoints (lo hi : Nat) : List Nat := List.range' lo (hi + 1 - lo)

/-- The range loop of the second pass, with the codepoint loop inside. -/
def addRanges {σ : Type} (ext : External σ) (TexWidth TexHeight : Int) (cfg : ImFontConfig)
    (fontFace : FreeTypeFont) (off_y : ℚ) : List Nat → GlyphLoop σ → Except Abort (GlyphLoop σ)
  | lo :: hi :: rest, st =>
    if lo ≠ 0 ∧ hi ≠ 0 then
      match addGlyphs ext TexWidth TexHeight cfg fontFace off_y (rangeCodepoints lo hi) st with
      | Except.error e => Except.error e
      | Except.ok st1 => addRanges ext TexWidth TexHeight cfg fontFace off_y rest st1
    else Except.ok st
  | _, st => Except.ok st

/-- The destination font as the second pass prepares it for one configuration:
reset unless in merge mode, one more configuration counted, fallback cleared. -/
def prepareFont (cfg : ImFontConfig) (fontFace : FreeTypeFont) (dst_font : ImFont) : ImFont :=
  let f : ImFont :=
    if cfg.MergeMode then dst_font
    else
      { dst_font with
        ContainerAtlas := AtlasRef.this
        ConfigDataCount := 0
        FontSize := cfg.SizePixels
        Ascent := fontFace.m_ascender
        Descent := fontFace.m_descender
        Glyphs := [] }
  { f with ConfigDataCount := f.ConfigDataCount + 1, FallbackGlyph := false }

/-- The vertical offset `off_y` of one configuration. -/
def offY (cfg : ImFontConfig) (fontFace : FreeTypeFont) (dst_font : ImFont) : ℚ :=
  if cfg.MergeMode && cfg.MergeGlyphCenterV then (fontFace.m_ascender - dst_font.Ascent) * (1 / 2)
  else 0

/-- The state the font loop of the second pass carries. -/
structure FontLoop (σ : Type) where
  context : σ
  tex : Nat → Nat
  Fonts : List ImFont
  glyphInfo : GlyphInfo

/-- One round of the font loop of the second pass: a configuration and its face. -/
def buildFont {σ : Type} (ext : External σ) (TexWidth TexHeight : Int) (st : FontLoop σ)
    (cfg : ImFontConfig) (fontFace : FreeTypeFont) : Except Abort (FontLoop σ) :=
  match cfg.DstFont with
  | none => Except.error Abort.dstFontInvalid
  | some i =>
    match st.Fonts.get? i with
    | none => Except.error Abort.dstFontInvalid
    | some dst =>
      let dst_font := prepareFont cfg fontFace dst
      let off_y := offY cfg fontFace dst_font
      match addRanges ext TexWidth TexHeight cfg fontFace off_y cfg.ranges
          { context := st.context, tex := st.tex, dst_font := dst_font,
            glyphInfo := st.glyphInfo } with
      | Except.error e => Except.error e
      | Except.ok g =>
        Except.ok
          { context := g.context
            tex := g.tex
            Fonts := st.Fonts.set i g.dst_font.BuildLookupTable
            glyphInfo := g.glyphInfo }

/-- The font loop of the second pass. -/
def buildFonts {σ : Type} (ext : External σ) (TexWidth TexHeight : Int) :
    List (ImFontConfig × FreeTypeFont) → FontLoop σ → Except Abort (FontLoop σ)
  | [], st => Except.ok st
  | (cfg, fontFace) :: rest, st =>
    match buildFont ext TexWidth TexHeight st cfg fontFace with
    | Except.error e => Except.error e
    | Except.ok st1 => buildFonts ext TexWidth TexHeight rest st1

/-- The values of the first loop before its first round. -/
def Survey.start : Survey :=
  { maxGlyphSize_x := 1, maxGlyphSize_y := 1, total_glyph_count := 0, fonts := [],
    ConfigData := [] }

/-- The survey the first pass of a build ends in; the start values when the
first pass aborts. -/
def surveyOf {σ : Type} (ext : External σ) (atlas : ImFontAtlas) : Survey :=
  match surveyLoop ext.GetGlyphRangesDefault atlas.Fonts atlas.ConfigData Survey.start with
  | Except.ok s => s
  | Except.error _ => Survey.start

/-- The value of `atlas->TexWidth` after a first pass that ended in `s`. -/
def texWidthOf (atlas : ImFontAtlas) (s : Survey) : Int :=
  chooseTexWidth atlas.TexDesiredWidth s.total_glyph_count

/-- The value of `TotalRects`: the glyph count plus the number of reserved
rectangles. -/
def totalRectsOf {σ : Type} (ext : External σ) (s : Survey) : Int :=
  s.total_glyph_count + (ext.customRects.length : Int)

/-- The value of `atlas->TexHeight` after `ImUpperPowerOfTwo`, before the
reserved rectangles are packed. -/
def estimateOf {σ : Type} (ext : External σ) (atlas : ImFontAtlas) (s : Survey) : Int :=
  estimateTexHeight (texWidthOf atlas s) s.maxGlyphSize_x s.maxGlyphSize_y (totalRectsOf ext s)

/-- The packer is set up for the texture size and the reserved rectangles are
packed: the packer context and the rectangles after `stbrp_pack_rects`. -/
def reservedOf {σ : Type} (ext : External σ) (atlas : ImFontAtlas) (s : Survey) :
    σ × List stbrp_rect :=
  ext.stbrp_pack_rects
    (ext.stbrp_init_target (texWidthOf atlas s) (estimateOf ext atlas s) (totalRectsOf ext s))
    ext.customRects

/-- The final value of `atlas->TexHeight`: the estimate grown over the packed
reserved rectangles. -/
def texHeightOf {σ : Type} (ext : External σ) (atlas : ImFontAtlas) (s : Survey) : Int :=
  growTexHeight (estimateOf ext atlas s) (reservedOf ext atlas s).2

/-- The state of the font loop before its first round: the packer context
after the reserved rectangles, the zeroed texture, the fonts of the atlas. -/
def fontLoopStart {σ : Type} (ext : External σ) (atlas : ImFontAtlas) (s : Survey) :
    FontLoop σ :=
  { context := (reservedOf ext atlas s).1, tex := fun _ => 0, Fonts := atlas.Fonts,
    glyphInfo := ext.glyphInfo0 }

/-- The function `ImGuiFreeType::BuildFontAtlas`: the returned flag and the
atlas it leaves behind. -/
def BuildFontAtlas {σ : Type} (ext : External σ) (atlas : ImFontAtlas) :
    Except Abort (Bool × ImFontAtlas) :=
  if atlas.ConfigData.length = 0 then Except.error Abort.configDataEmpty
  else
    match surveyLoop ext.GetGlyphRangesDefault atlas.Fonts atlas.ConfigData Survey.start with
    | Except.error e => Except.error e
    | Except.ok s =>
      match buildFonts ext (texWidthOf atlas s) (texHeightOf ext atlas s)
          (s.ConfigData.zip s.fonts) (fontLoopStart ext atlas s) with
      | Except.error e => Except.error e
      | Except.ok st =>
        Except.ok
          (true,
            { atlas with
              TexWidth := texWidthOf atlas s
              TexHeight := texHeightOf ext atlas s
              TexPixelsAlpha8 :=
                some (ext.renderCustom (texWidthOf atlas s) (texHeightOf ext atlas s)
                  (reservedOf ext atlas s).2 st.tex)
              ConfigData := s.ConfigData
              Fonts := st.Fonts })

/-! ## The quantities the specification speaks of -/

/-- The codepoint ranges of a zero-terminated array, as inclusive pairs
`(lo, hi)`: the pairs in front of the first pair with a zero member. -/
def rangePairs : List Nat → List (Nat × Nat)
  | lo :: hi :: rest => if lo ≠ 0 ∧ hi ≠ 0 then (lo, hi) :: rangePairs rest else []
  | _ => []

/-- The number `N` of requested glyphs: the sum over all fonts and all their
codepoint ranges `[lo, hi]` of `hi - lo + 1`, a font without ranges of its own
taking the default ranges. -/
def requestedGlyphs (defaults : List Nat) (configs : List ImFontConfig) : Int :=
  (configs.map (fun cfg =>
    ((rangePairs (cfg.GlyphRanges.getD defaults)).map
      (fun p => ((p.2 : Int) - (p.1 : Int)) + 1)).sum)).sum

/-- The texture width the specification prescribes for `N` requested glyphs. -/
def specTexWidth (TexDesiredWidth N : Int) : Int :=
  if TexDesiredWidth > 0 then TexDesiredWidth
  else if N > 4000 then 4096
  else if 2000 < N ∧ N ≤ 4000 then 2048
  else if 1000 < N ∧ N ≤ 2000 then 1024
  else 512

/-- The codepoints a zero-terminated range array requests, in the order the
range loop and the codepoint loop visit them. -/
def requestedCodepoints : List Nat → List Nat
  | lo :: hi :: rest =>
    if lo ≠ 0 ∧ hi ≠ 0 then rangeCodepoints lo hi ++ requestedCodepoints rest else []
  | _ => []

/-- The codepoints of the glyph table of a font, in table order. -/
def ImFont.codepoints (f : ImFont) : List Nat := f.Glyphs.map Glyph.Codepoint

/-- The lookup table of a font reflects its glyph table, as `BuildLookupTable`
leaves it. -/
def ImFont.LookupCurrent (f : ImFont) : Prop := ∀ c, c ∈ f.IndexLookup ↔ c ∈ f.codepoints

/-- The glyph table of a font holds no codepoint twice and its lookup table
reflects it. -/
def ImFont.TableOk (f : ImFont) : Prop := f.codepoints.Nodup ∧ f.LookupCurrent

/-- The codepoints the codepoint loop appends to the table of `f` when it runs
over `cs`: each codepoint as `ImWchar`, except those the merge check skips. -/
def appended (cfg : ImFontConfig) (f : ImFont) (cs : List Nat) : List Nat :=
  (cs.map (fun c => c % 65536)).filter (fun c => !(cfg.MergeMode && f.FindGlyph c))

/-- A number is a power of two. -/
def IsPowerOfTwo (n : Int) : Prop := ∃ k : Nat, n = 2 ^ k

/-! ## Sample inputs -/

/-- A glyph answer of the font engine: a `w` by `h` bitmap with row pitch
`pitch`, every byte of coverage `c`. -/
def sampleGlyph (w h : Nat) (pitch : Int) (c : Nat) : FT_GlyphAnswer :=
  { loadError := false
    formatIsOutline := true
    getGlyphError := false
    toBitmapError := false
    advance_x := 64 * (w : Int)
    left := 0
    top := (h : Int)
    bitmap := { rows := h, width := w, pitch := pitch, buffer := some (fun _ => c) } }

/-- A glyph answer of the font engine for a codepoint the face cannot load. -/
def missingGlyph : FT_GlyphAnswer :=
  { loadError := true
    formatIsOutline := true
    getGlyphError := false
    toBitmapError := false
    advance_x := 0
    left := 0
    top := 0
    bitmap := { rows := 0, width := 0, pitch := 0, buffer := none } }

/-- A face that opens without error, with the given metrics (26.6 fixed point)
and glyphs. -/
def sampleFace (ascender descender max_advance : Int) (glyph : Nat → FT_GlyphAnswer) :
    FT_FaceAnswer :=
  { initFreeTypeError := false
    newMemoryFaceError := false
    selectCharmapError := false
    ascender := ascender
    descender := descender
    max_advance := max_advance
    glyph := glyph }

/-- A glyph record with all members zero and an all-zero bitmap. -/
def zeroGlyphInfo : GlyphInfo :=
  { width := 0, height := 0, offsetX := 0, offsetY := 0, advanceX := 0
    bmp := { width := 0, height := 0, pitch := 0, grayscale := fun _ => 0 } }

/-- A small rectangle packer used as sample collaborator: it stacks the
rectangles top down at the left edge and records every request.  A rectangle
that does not fit gets the coordinates `0xffff`, as stb_rect_pack marks an
unplaced one. -/
structure Shelf where
  width : Int
  height : Int
  nextY : Nat
  requests : List (Nat × Nat)

/-- The sample packer places one rectangle. -/
def Shelf.packOne (c : Shelf) (r : stbrp_rect) : Shelf × stbrp_rect :=
  if (r.w : Int) ≤ c.width ∧ ((c.nextY + r.h : Nat) : Int) ≤ c.height then
    ({ c with nextY := c.nextY + r.h, requests := c.requests ++ [(r.w, r.h)] },
      { r with x := 0, y := c.nextY, was_packed := true })
  else
    ({ c with requests := c.requests ++ [(r.w, r.h)] },
      { r with x := 65535, y := 65535, was_packed := false })

/-- The sample packer places a list of rectangles in call order. -/
def Shelf.pack : Shelf → List stbrp_rect → Shelf × List stbrp_rect
  | c, [] => (c, [])
  | c, r :: rs =>
    let one := c.packOne r
    let more := Shelf.pack one.1 rs
    (more.1, one.2 :: more.2)

/-- Sample collaborators: the sample packer, one reserved rectangle of 5 by 3
pixels, no painting of the reserved rectangle, the default ranges
`0x20 .. 0xFF`. -/
def sampleExternal : External Shelf :=
  { stbrp_init_target := fun w h _ => { width := w, height := h, nextY := 0, requests := [] }
    stbrp_pack_rects := Shelf.pack
    customRects := [{ id := 0, w := 5, h := 3, x := 0, y := 0, was_packed := false }]
    renderCustom := fun _ _ _ tex => tex
    GetGlyphRangesDefault := [32, 255, 0]
    glyphInfo0 := zeroGlyphInfo }

/-- A destination font that has not been loaded yet. -/
def freshFont : ImFont :=
  { FontSize := 0, Ascent := 0, Descent := 0, ConfigDataCount := 0
    ContainerAtlas := AtlasRef.null, Glyphs := [], IndexLookup := [], FallbackGlyph := false
    FallbackChar := 63 }

/-- A font configuration for destination font 0 with the given face, ranges
and merge flag; no brightening, no extra spacing. -/
def sampleConfig (face : FT_FaceAnswer) (ranges : Option (List Nat)) (merge : Bool) :
    ImFontConfig :=
  { FontData := face, SizePixels := 13, GlyphRanges := ranges, DstFont := some 0
    MergeMode := merge, MergeGlyphCenterV := false, GlyphExtraSpacing_x := 0, Brighten := 0
    PixelSnapH := false }

/-- An atlas with one destination font and the given configurations. -/
def sampleAtlas (TexDesiredWidth : Int) (configs : List ImFontConfig) : ImFontAtlas :=
  { TexDesiredWidth := TexDesiredWidth, TexWidth := 0, TexHeight := 0, TexPixelsAlpha8 := none
    ConfigData := configs, Fonts := [freshFont] }

/-- A face of 13 pixel height whose every glyph is a 3 by 2 bitmap. -/
def smallFace : FT_FaceAnswer := sampleFace 640 (-192) 512 (fun _ => sampleGlyph 3 2 3 200)

/-- A face of 3 pixel height (ascender 2, descender -1, advance 2) whose every
glyph is a 1 by 1 bitmap. -/
def tinyFace : FT_FaceAnswer := sampleFace 128 (-64) 128 (fun _ => sampleGlyph 1 1 1 200)

/-- An atlas of two configurations for one destination font: the first fills
the font with `0x41 .. 0x42`, the second merges the ranges `0x42 .. 0x43` and
`0x43 .. 0x44`, which overlap each other in `0x43`. -/
def overlappingMergeAtlas : ImFontAtlas :=
  sampleAtlas 0
    [sampleConfig tinyFace (some [65, 66, 0]) false,
     sampleConfig tinyFace (some [66, 67, 67, 68, 0]) true]

/-- An atlas of two configurations for one destination font: the first fills
the font with `0x41 .. 0x42`, the second merges the range `0x42 .. 0x43`. -/
def disjointMergeAtlas : ImFontAtlas :=
  sampleAtlas 0
    [sampleConfig tinyFace (some [65, 66, 0]) false,
     sampleConfig tinyFace (some [66, 67, 0]) true]

/-- A face of 3 pixel height whose every glyph is a 2 by 2 bitmap. -/
def squareFace : FT_FaceAnswer := sampleFace 128 (-64) 128 (fun _ => sampleGlyph 2 2 2 200)

/-- An atlas with a desired texture width of 2 pixels and one glyph to build:
the 3 by 3 rectangle of the glyph cannot be placed. -/
def narrowAtlas : ImFontAtlas := sampleAtlas 2 [sampleConfig squareFace (some [65, 65, 0]) false]

/-- A face of 3 pixel height that has a 1 by 1 glyph with bearing for every
codepoint except `0x42`, which it cannot load. -/
def gappyFace : FT_FaceAnswer :=
  sampleFace 128 (-64) 128 (fun c => if c = 66 then missingGlyph else sampleGlyph 1 1 1 200)

/-- An atlas that requests `0x41 .. 0x42` of the face without `0x42`. -/
def gappyAtlas : ImFontAtlas := sampleAtlas 0 [sampleConfig gappyFace (some [65, 66, 0]) false]

/-- The `float` nearest to three tenths, `0.3f`. -/
def threeTenths : ℚ := 10066330 / 33554432

/-- A face whose every glyph is a 3 by 2 bitmap of pitch 4 with coverage 90. -/
def blitFace : FreeTypeFont :=
  { m_ascender := 2, m_descender := -1, m_maxAdvanceWidth := 3
    m_face := sampleFace 128 (-64) 192 (fun _ => sampleGlyph 3 2 4 90) }

/-- A configuration with the brighten factor `0.3f`. -/
def blitConfig : ImFontConfig :=
  { FontData := blitFace.m_face, SizePixels := 3, GlyphRanges := some [65, 65, 0]
    DstFont := some 0, MergeMode := false, MergeGlyphCenterV := false
    GlyphExtraSpacing_x := 0, Brighten := threeTenths, PixelSnapH := false }

/-- The state of the glyph loop in front of the first glyph of a 16 by 16
texture: an empty shelf packer, a zeroed texture, a fresh font. -/
def blitStart : GlyphLoop Shelf :=
  { context := { width := 16, height := 16, nextY := 0, requests := [] }
    tex := fun _ => 0, dst_font := freshFont, glyphInfo := zeroGlyphInfo }

/-- What `RasterizeGlyph` answers for a glyph of `blitFace`: a 3 by 2 bitmap of
pitch 4, the eight copied bytes 90. -/
def blitRaster : Rasterized :=
  { ret := true
    glyphInfo :=
      { advanceX := 3, offsetX := 0, offsetY := -2, width := 3, height := 2
        bmp := { width := 3, height := 2, pitch := 4
                 grayscale := memcpy (fun _ => 0) 0 (fun _ => 90) 0 8 } }
    copied := 8 }

/-! ## Lemmas on the fixed point helpers -/

theorem testBit_div_64 (m i : Nat) (h : 6 ≤ i) : (m / 2 ^ 6).testBit (i - 6) = m.testBit i := by
  rw [← Nat.shiftRight_eq_div_pow, Nat.testBit_shiftRight]
  congr 1; omega

theorem ldiff_63 (m : Nat) : m.ldiff 63 = 64 * (m / 64) := by
  apply Nat.eq_of_testBit_eq
  intro i
  rw [Nat.testBit_ldiff]
  have h63 : (63 : Nat) = 2 ^ 6 - 1 := by norm_num
  have h64 : (64 : Nat) = 2 ^ 6 := by norm_num
  rw [h63, Nat.testBit_two_pow_sub_one, h64, Nat.testBit_mul_pow_two]
  by_cases h : i < 6
  · simp [h]
  · have h6 : 6 ≤ i := by omega
    rw [testBit_div_64 m i h6]
    simp [h, h6]

theorem lor_63 (m : Nat) : m ||| 63 = 64 * (m / 64) + 63 := by
  apply Nat.eq_of_testBit_eq
  intro i
  have h63 : (63 : Nat) = 2 ^ 6 - 1 := by norm_num
  have h64 : (64 : Nat) = 2 ^ 6 := by norm_num
  rw [Nat.testBit_or, h64, Nat.testBit_mul_pow_two_add _ (by norm_num : 63 < 2 ^ 6), h63,
    Nat.testBit_two_pow_sub_one]
  by_cases h : i < 6
  · simp [h]
  · have h6 : 6 ≤ i := by omega
    rw [testBit_div_64 m i h6]
    simp [h]

/-- Masking with `-64` clears the six low bits: it rounds down to a multiple
of 64, for negative numbers too. -/
theorem land_neg_64 (x : Int) : Int.land x (-64) = 64 * (x / 64) := by
  have hneg : (-64 : Int) = Int.negSucc 63 := rfl
  rw [hneg]
  cases x with
  | ofNat m =>
    show ((m.ldiff 63 : Nat) : Int) = 64 * ((m : Int) / 64)
    rw [ldiff_63]
    push_cast
    omega
  | negSucc m =>
    show Int.negSucc (m ||| 63) = _
    rw [lor_63]
    rw [Int.negSucc_eq, Int.negSucc_eq]
    push_cast
    omega

/-- The macro `FT_CEIL` is the ceiling of `X / 64`. -/
theorem FT_CEIL_eq (X : Int) : FT_CEIL X = (X + 63) / 64 := by
  unfold FT_CEIL
  rw [land_neg_64, Int.tdiv_eq_ediv_of_dvd]
  · omega
  · exact Dvd.intro _ rfl

/-! ## C10: the pixel metrics of `FreeTypeFont::Init` -/

/-- C10, as stated, fails: for an ascender of exactly one pixel (`a = 64`) and a
descender just below minus one pixel (`d = -65`), `Init` yields `m_ascender = 1`
and `m_descender = -1`, and `64 * (1 - (-1)) = 128` is less than `a - d = 129`. -/
theorem Init_extent_not_covered :
    ∃ font, FreeTypeFont.Init (sampleFace 64 (-65) 64 (fun _ => missingGlyph)) = Except.ok font ∧
      ¬ (64 * (font.m_ascender - font.m_descender) ≥ ((64 : Int) : ℚ) - (((-65) : Int) : ℚ)) := by
  refine ⟨_, rfl, ?_⟩
  simp only [sampleFace, FT_CEIL_eq]
  norm_num

/-- C10, amended: when the three set-up calls succeed, `Init` returns a font
whose `m_ascender` and `m_descender` are `FT_CEIL` of the 26.6 metrics, each the
ceiling of its metric (`64 * m >= metric`), so that
`64 * (m_ascender - m_descender) >= a - d - 63`; the full extent `a - d` is
covered when `d` is a whole number of pixels. -/
theorem Init_extent_bound (face : FT_FaceAnswer)
    (h1 : face.initFreeTypeError = false) (h2 : face.newMemoryFaceError = false)
    (h3 : face.selectCharmapError = false) :
    ∃ font, FreeTypeFont.Init face = Except.ok font ∧
      font.m_ascender = ((FT_CEIL face.ascender : Int) : ℚ) ∧
      font.m_descender = ((FT_CEIL face.descender : Int) : ℚ) ∧
      (face.ascender : ℚ) ≤ 64 * font.m_ascender ∧
      (face.descender : ℚ) ≤ 64 * font.m_descender ∧
      (face.ascender : ℚ) - (face.descender : ℚ) - 63
        ≤ 64 * (font.m_ascender - font.m_descender) ∧
      (64 ∣ face.descender →
        (face.ascender : ℚ) - (face.descender : ℚ)
          ≤ 64 * (font.m_ascender - font.m_descender)) := by
  refine ⟨{ m_ascender := ((FT_CEIL face.ascender : Int) : ℚ)
            m_descender := ((FT_CEIL face.descender : Int) : ℚ)
            m_maxAdvanceWidth := ((FT_CEIL face.max_advance : Int) : ℚ)
            m_face := face },
    by simp [FreeTypeFont.Init, h1, h2, h3], rfl, rfl, ?_, ?_, ?_, ?_⟩
  · have h : face.ascender ≤ 64 * FT_CEIL face.ascender := by rw [FT_CEIL_eq]; omega
    dsimp only
    exact_mod_cast h
  · have h : face.descender ≤ 64 * FT_CEIL face.descender := by rw [FT_CEIL_eq]; omega
    dsimp only
    exact_mod_cast h
  · have h : face.ascender - face.descender - 63
        ≤ 64 * (FT_CEIL face.ascender - FT_CEIL face.descender) := by
      rw [FT_CEIL_eq, FT_CEIL_eq]; omega
    dsimp only
    exact_mod_cast h
  · intro hd
    have h : face.ascender - face.descender
        ≤ 64 * (FT_CEIL face.ascender - FT_CEIL face.descender) := by
      rw [FT_CEIL_eq, FT_CEIL_eq]; omega
    dsimp only
    exact_mod_cast h

/-- A face with `a = 100`, `d = -30` (26.6 fixed point) meets the premises of
`Init_extent_bound`. -/
theorem Init_extent_bound_witness :
    ∃ font, FreeTypeFont.Init (sampleFace 100 (-30) 64 (fun _ => missingGlyph)) = Except.ok font ∧
      font.m_ascender = ((FT_CEIL (100 : Int) : Int) : ℚ) ∧
      font.m_descender = ((FT_CEIL (-30 : Int) : Int) : ℚ) ∧
      (((100 : Int) : ℚ)) ≤ 64 * font.m_ascender ∧
      (((-30 : Int) : ℚ)) ≤ 64 * font.m_descender ∧
      ((100 : Int) : ℚ) - ((-30 : Int) : ℚ) - 63 ≤ 64 * (font.m_ascender - font.m_descender) ∧
      (64 ∣ (-30 : Int) →
        ((100 : Int) : ℚ) - ((-30 : Int) : ℚ) ≤ 64 * (font.m_ascender - font.m_descender)) :=
  Init_extent_bound (sampleFace 100 (-30) 64 (fun _ => missingGlyph)) rfl rfl rfl

/-! ## C9: the bitmap bound of `RasterizeGlyph` -/

/-- C9, the code at the failing input: for a bitmap of 256 by 257 pixels (row
pitch 256), `RasterizeGlyph` passes its only assertion (`pitch <= MaxWidth`),
returns `true`, and its `memcpy` writes `256 * 257 = 65792` bytes to the
`grayscale` array of `MaxWidth * MaxHeight = 65536` bytes. -/
theorem RasterizeGlyph_copies_past_grayscale :
    ∃ r, FreeTypeFont.RasterizeGlyph
          { m_ascender := 0, m_descender := 0, m_maxAdvanceWidth := 0
            m_face := sampleFace 0 0 0 (fun _ => sampleGlyph 256 257 256 255) }
          65 zeroGlyphInfo = Except.ok r ∧
      r.ret = true ∧ r.glyphInfo.bmp.height = 257 ∧ r.copied = 65792 ∧
      GlyphBitmap.MaxWidth * GlyphBitmap.MaxHeight < r.copied := by
  refine ⟨_, rfl, rfl, ?_, ?_, ?_⟩ <;> decide


/-! ## C1: the texture width -/

theorem countGlyphs_eq (r : List Nat) (t : Int) :
    countGlyphs r t
      = t + ((rangePairs r).map (fun p => ((p.2 : Int) - (p.1 : Int)) + 1)).sum := by
  induction r, t using countGlyphs.induct with
  | case1 lo hi rest total h ih =>
    rw [countGlyphs, if_pos h, ih, rangePairs, if_pos h]
    simp only [List.map_cons, List.sum_cons]
    ring
  | case2 lo hi rest total h =>
    rw [countGlyphs, if_neg h, rangePairs, if_neg h]
    simp
  | case3 r total hne =>
    match r, hne with
    | [], _ => simp [countGlyphs, rangePairs]
    | [a], _ => simp [countGlyphs, rangePairs]
    | a :: b :: rest, hne => exact absurd rfl (hne a b rest)

theorem surveyConfig_count (d : List Nat) (Fonts : List ImFont) (s s1 : Survey)
    (cfg : ImFontConfig) (h : surveyConfig d Fonts s cfg = Except.ok s1) :
    s1.total_glyph_count = countGlyphs (cfg.GlyphRanges.getD d) s.total_glyph_count := by
  unfold surveyConfig at h
  split at h
  · cases h
  · split at h
    · cases h
    · split at h
      · cases h
      · split at h
        · cases h
        · cases h
          cases hr : cfg.GlyphRanges <;> simp [hr]

theorem surveyLoop_count (d : List Nat) (Fonts : List ImFont) (configs : List ImFontConfig) :
    ∀ (s s1 : Survey), surveyLoop d Fonts configs s = Except.ok s1 →
      s1.total_glyph_count = s.total_glyph_count + requestedGlyphs d configs := by
  induction configs with
  | nil =>
    intro s s1 h
    simp only [surveyLoop] at h
    cases h
    simp [requestedGlyphs]
  | cons cfg rest ih =>
    intro s s1 h
    simp only [surveyLoop] at h
    split at h
    · cases h
    · next s2 h2 =>
      rw [ih s2 s1 h, surveyConfig_count d Fonts s s2 cfg h2, countGlyphs_eq]
      simp only [requestedGlyphs, List.map_cons, List.sum_cons]
      ring

theorem chooseTexWidth_eq_spec (TexDesiredWidth N : Int) :
    chooseTexWidth TexDesiredWidth N = specTexWidth TexDesiredWidth N := by
  unfold chooseTexWidth specTexWidth
  split_ifs <;> first | rfl | omega

/-- A build that returns went through both passes: the first pass ended in a
survey `s`, the font loop in a state `st`, the flag is `true` and the atlas
holds the texture size chosen after the first pass, the painted texture and
the fonts of `st`. -/
theorem BuildFontAtlas_ok {σ : Type} (ext : External σ) (atlas : ImFontAtlas)
    (r : Bool × ImFontAtlas) (h : BuildFontAtlas ext atlas = Except.ok r) :
    ∃ s st,
      surveyLoop ext.GetGlyphRangesDefault atlas.Fonts atlas.ConfigData Survey.start
        = Except.ok s ∧
      buildFonts ext (texWidthOf atlas s) (texHeightOf ext atlas s)
        (s.ConfigData.zip s.fonts) (fontLoopStart ext atlas s) = Except.ok st ∧
      r.1 = true ∧
      r.2.TexWidth = texWidthOf atlas s ∧
      r.2.TexHeight = texHeightOf ext atlas s ∧
      r.2.Fonts = st.Fonts := by
  unfold BuildFontAtlas at h
  split at h
  · cases h
  · split at h
    · cases h
    · next s hs =>
      split at h
      · cases h
      · next st hst =>
        cases h
        exact ⟨s, st, hs, hst, rfl, rfl, rfl, rfl⟩

/-- C1: whenever `BuildFontAtlas` returns, the texture width of the atlas is
`TexDesiredWidth` if that is positive, and otherwise 4096, 2048, 1024 or 512
according to whether the number `N` of requested glyphs (the sum of
`hi - lo + 1` over all ranges of all fonts) is above 4000, in `(2000, 4000]`,
in `(1000, 2000]`, or at most 1000. -/
theorem BuildFontAtlas_TexWidth {σ : Type} (ext : External σ) (atlas : ImFontAtlas)
    (r : Bool × ImFontAtlas) (h : BuildFontAtlas ext atlas = Except.ok r) :
    r.2.TexWidth = specTexWidth atlas.TexDesiredWidth
      (requestedGlyphs ext.GetGlyphRangesDefault atlas.ConfigData) := by
  obtain ⟨s, st, hs, _, _, hw, _, _⟩ := BuildFontAtlas_ok ext atlas r h
  rw [hw, texWidthOf, surveyLoop_count _ _ _ _ _ hs, chooseTexWidth_eq_spec]
  simp [Survey.start]

/-- A build of one font with the single range `0x41 .. 0x42` and no desired
width returns, and its texture is 512 wide. -/
theorem BuildFontAtlas_TexWidth_witness :
    ∃ r, BuildFontAtlas sampleExternal
          (sampleAtlas 0 [sampleConfig smallFace (some [65, 66, 0]) false])
        = Except.ok r ∧ r.2.TexWidth = 512 :=
  ⟨_, by with_unfolding_all rfl,
    (BuildFontAtlas_TexWidth sampleExternal
      (sampleAtlas 0 [sampleConfig smallFace (some [65, 66, 0]) false]) _
      (by with_unfolding_all rfl)).trans (by decide)⟩

/-! ## C2: the height estimate -/

/-- C2, the code at the failing input: for a 512 wide texture, a maximum glyph
footprint of 300 by 300 pixels and 5 rectangles, the estimate counts
`ceil(512 / 301) = 2` rectangles per row, hence 3 rows and a height of
`UpperPowerOfTwo(903) = 1024`; but only `floor(512 / 301) = 1` cell fits in a
row and `floor(1024 / 301) = 3` rows fit, so 3 cells fit where 5 are needed. -/
theorem estimateTexHeight_undersizes :
    estimateTexHeight 512 300 300 5 = 1024 ∧
      ¬ ((512 / (300 + 1)) * ((estimateTexHeight 512 300 300 5).toNat / (300 + 1)) ≥ 5) := by
  decide!

/-! ## C7: the final texture height -/

theorem upperPowerOfTwoFrom_isPow (v : Nat) :
    ∀ (fuel p : Nat), (∃ k : Nat, p = 2 ^ k) → ∃ k : Nat, upperPowerOfTwoFrom v fuel p = 2 ^ k := by
  intro fuel
  induction fuel with
  | zero => intro p hp; simpa [upperPowerOfTwoFrom] using hp
  | succ n ih =>
    intro p hp
    simp only [upperPowerOfTwoFrom]
    split
    · exact hp
    · obtain ⟨k, rfl⟩ := hp
      exact ih _ ⟨k + 1, by ring⟩

theorem upperPowerOfTwoFrom_ge (v : Nat) :
    ∀ (fuel p : Nat), v ≤ p * 2 ^ fuel → v ≤ upperPowerOfTwoFrom v fuel p := by
  intro fuel
  induction fuel with
  | zero => intro p hp; simpa [upperPowerOfTwoFrom] using hp
  | succ n ih =>
    intro p hp
    simp only [upperPowerOfTwoFrom]
    split
    · assumption
    · apply ih
      calc v ≤ p * 2 ^ (n + 1) := hp
        _ = 2 * p * 2 ^ n := by ring

/-- The rounding `ImUpperPowerOfTwo` yields a power of two. -/
theorem ImUpperPowerOfTwo_isPow (v : Int) : IsPowerOfTwo (ImUpperPowerOfTwo v) := by
  obtain ⟨k, hk⟩ := upperPowerOfTwoFrom_isPow v.toNat v.toNat 1 ⟨0, rfl⟩
  exact ⟨k, by unfold ImUpperPowerOfTwo; rw [hk]; push_cast; rfl⟩

/-- The rounding `ImUpperPowerOfTwo` does not go below its argument. -/
theorem ImUpperPowerOfTwo_ge (v : Int) : v ≤ ImUpperPowerOfTwo v := by
  have h : v.toNat ≤ upperPowerOfTwoFrom v.toNat v.toNat 1 := by
    apply upperPowerOfTwoFrom_ge
    rw [one_mul]
    exact Nat.le_of_lt (Nat.lt_two_pow v.toNat)
  unfold ImUpperPowerOfTwo
  omega

theorem growTexHeight_ge (rects : List stbrp_rect) :
    ∀ (H : Int), H ≤ growTexHeight H rects := by
  induction rects with
  | nil => intro H; simp [growTexHeight]
  | cons q rest ih =>
    intro H
    simp only [growTexHeight, List.foldl_cons] at ih ⊢
    split
    · exact le_trans (le_max_left _ _) (ih _)
    · exact ih _

theorem growTexHeight_within (rects : List stbrp_rect) :
    ∀ (H : Int), (∀ q ∈ rects, q.was_packed = true → ((q.y + q.h : Nat) : Int) ≤ H) →
      growTexHeight H rects = H := by
  induction rects with
  | nil => intro H _; simp [growTexHeight]
  | cons q rest ih =>
    intro H hq
    simp only [growTexHeight, List.foldl_cons] at ih ⊢
    split
    · next hp =>
      rw [max_eq_left (hq q (List.mem_cons_self _ _) hp)]
      exact ih H (fun q1 h1 => hq q1 (List.mem_cons_of_mem _ h1))
    · exact ih H (fun q1 h1 => hq q1 (List.mem_cons_of_mem _ h1))

/-- A projection of a finished run has the value that the projection of the
run as an option has. -/
theorem ok_of_map_eq_some {α β : Type} (x : Except Abort α) (f : α → β) (b : β)
    (h : x.toOption.map f = some b) : ∃ r, x = Except.ok r ∧ f r = b := by
  cases x with
  | error e => simp [Except.toOption] at h
  | ok r => exact ⟨r, rfl, by simpa [Except.toOption] using h⟩

theorem surveyOf_eq {σ : Type} (ext : External σ) (atlas : ImFontAtlas) (s : Survey)
    (hs : surveyLoop ext.GetGlyphRangesDefault atlas.Fonts atlas.ConfigData Survey.start
      = Except.ok s) : surveyOf ext atlas = s := by
  unfold surveyOf
  rw [hs]

/-- The estimate of every build is a power of two, and the final texture
height is that estimate grown over the packed reserved rectangles, so it is
never below the estimate. -/
theorem BuildFontAtlas_TexHeight_grown {σ : Type} (ext : External σ) (atlas : ImFontAtlas)
    (r : Bool × ImFontAtlas) (h : BuildFontAtlas ext atlas = Except.ok r) :
    IsPowerOfTwo (estimateOf ext atlas (surveyOf ext atlas)) ∧
      r.2.TexHeight = growTexHeight (estimateOf ext atlas (surveyOf ext atlas))
        (reservedOf ext atlas (surveyOf ext atlas)).2 ∧
      estimateOf ext atlas (surveyOf ext atlas) ≤ r.2.TexHeight := by
  obtain ⟨s, st, hs, _, _, _, hh, _⟩ := BuildFontAtlas_ok ext atlas r h
  rw [surveyOf_eq ext atlas s hs]
  refine ⟨ImUpperPowerOfTwo_isPow _, hh, ?_⟩
  rw [hh]
  exact growTexHeight_ge _ _

/-- C7: in every build that returns, with a packer that keeps every reserved
rectangle it reports as packed within the bin height it was set up with
(`y + h` is at most the estimate that `ImUpperPowerOfTwo` rounded), the final
texture height, after the rounding and after the growth over the packed
reserved rectangles, is that estimate and is a power of two. -/
theorem BuildFontAtlas_TexHeight_power_of_two {σ : Type} (ext : External σ)
    (atlas : ImFontAtlas) (r : Bool × ImFontAtlas)
    (h : BuildFontAtlas ext atlas = Except.ok r)
    (hfit : ∀ q ∈ (reservedOf ext atlas (surveyOf ext atlas)).2, q.was_packed = true →
      ((q.y + q.h : Nat) : Int) ≤ estimateOf ext atlas (surveyOf ext atlas)) :
    r.2.TexHeight = estimateOf ext atlas (surveyOf ext atlas) ∧
      IsPowerOfTwo r.2.TexHeight := by
  obtain ⟨_, hh, _⟩ := BuildFontAtlas_TexHeight_grown ext atlas r h
  have he : r.2.TexHeight = estimateOf ext atlas (surveyOf ext atlas) := by
    rw [hh]; exact growTexHeight_within _ _ hfit
  exact ⟨he, by rw [he]; exact ImUpperPowerOfTwo_isPow _⟩

/-- A build of one glyph of a 3 pixel font with the shelf packer, which keeps
the reserved rectangle of 5 by 3 pixels inside the bin, meets the premises of
`BuildFontAtlas_TexHeight_power_of_two`. -/
theorem BuildFontAtlas_TexHeight_power_of_two_witness :
    ∃ r, BuildFontAtlas sampleExternal
          (sampleAtlas 0 [sampleConfig tinyFace (some [65, 65, 0]) false]) = Except.ok r ∧
      (∀ q ∈ (reservedOf sampleExternal
          (sampleAtlas 0 [sampleConfig tinyFace (some [65, 65, 0]) false])
          (surveyOf sampleExternal
            (sampleAtlas 0 [sampleConfig tinyFace (some [65, 65, 0]) false]))).2,
        q.was_packed = true → ((q.y + q.h : Nat) : Int) ≤ estimateOf sampleExternal
          (sampleAtlas 0 [sampleConfig tinyFace (some [65, 65, 0]) false])
          (surveyOf sampleExternal
            (sampleAtlas 0 [sampleConfig tinyFace (some [65, 65, 0]) false]))) ∧
      r.2.TexHeight = estimateOf sampleExternal
          (sampleAtlas 0 [sampleConfig tinyFace (some [65, 65, 0]) false])
          (surveyOf sampleExternal
            (sampleAtlas 0 [sampleConfig tinyFace (some [65, 65, 0]) false])) ∧
      IsPowerOfTwo r.2.TexHeight :=
  ⟨_, by with_unfolding_all rfl, by decide!,
    BuildFontAtlas_TexHeight_power_of_two sampleExternal
      (sampleAtlas 0 [sampleConfig tinyFace (some [65, 65, 0]) false]) _
      (by with_unfolding_all rfl) (by decide!)⟩

/-! ## C8: the blit -/

theorem roundEven_intCast (n : Int) : roundEven (n : ℚ) = n := by
  unfold roundEven
  simp

theorem floor_le_roundEven (q : ℚ) : ⌊q⌋ ≤ roundEven q := by
  unfold roundEven
  split_ifs <;> omega

theorem roundEven_le_floor_add_one (q : ℚ) : roundEven q ≤ ⌊q⌋ + 1 := by
  unfold roundEven
  split_ifs <;> omega

/-- Rounding to the nearest integer keeps the order. -/
theorem roundEven_mono {q1 q2 : ℚ} (h : q1 ≤ q2) : roundEven q1 ≤ roundEven q2 := by
  have hf : ⌊q1⌋ ≤ ⌊q2⌋ := Int.floor_mono h
  rcases lt_or_eq_of_le hf with hlt | heq
  · calc roundEven q1 ≤ ⌊q1⌋ + 1 := roundEven_le_floor_add_one q1
      _ ≤ ⌊q2⌋ := by omega
      _ ≤ roundEven q2 := floor_le_roundEven q2
  · unfold roundEven
    rw [heq]
    have hr : q1 - (⌊q2⌋ : ℚ) ≤ q2 - (⌊q2⌋ : ℚ) := by linarith
    split_ifs <;> first | omega | (exfalso; linarith)

theorem le_roundEven {n : Int} {q : ℚ} (h : (n : ℚ) ≤ q) : n ≤ roundEven q := by
  have := roundEven_mono h
  rwa [roundEven_intCast] at this

theorem roundEven_le {n : Int} {q : ℚ} (h : q ≤ (n : ℚ)) : roundEven q ≤ n := by
  have := roundEven_mono h
  rwa [roundEven_intCast] at this

/-- A positive number is rounded to a value in its own binade or to the power
of two that ends it: from below the result is at least `2 ^ e`. -/
theorem float32Pos_ge (q : ℚ) (hq : 0 < q) : (2 : ℚ) ^ (Int.log 2 q) ≤ float32Pos q := by
  unfold float32Pos
  have hu : (0 : ℚ) < (2 : ℚ) ^ (Int.log 2 q - 23) := by positivity
  have h1 : ((2 : ℚ) ^ (Int.log 2 q)) ≤ q := by
    have := Int.zpow_log_le_self (b := 2) (by norm_num) hq
    exact_mod_cast this
  have hpow : (((2 ^ 23 : Int)) : ℚ) * (2 : ℚ) ^ (Int.log 2 q - 23) = (2 : ℚ) ^ (Int.log 2 q) := by
    rw [zpow_sub₀ (by norm_num)]; push_cast; field_simp; ring
  have h2 : (((2 ^ 23 : Int)) : ℚ) ≤ q / (2 : ℚ) ^ (Int.log 2 q - 23) := by
    rw [le_div_iff₀ hu, hpow]
    exact h1
  have h3 := le_roundEven h2
  rw [← hpow]
  apply mul_le_mul_of_nonneg_right _ hu.le
  exact_mod_cast h3

theorem float32Pos_le (q : ℚ) : float32Pos q ≤ (2 : ℚ) ^ (Int.log 2 q + 1) := by
  unfold float32Pos
  have hu : (0 : ℚ) < (2 : ℚ) ^ (Int.log 2 q - 23) := by positivity
  have h1 : q < ((2 : ℚ) ^ (Int.log 2 q + 1)) := by
    have := Int.lt_zpow_succ_log_self (b := 2) (by norm_num) q
    exact_mod_cast this
  have hpow : (((2 ^ 24 : Int)) : ℚ) * (2 : ℚ) ^ (Int.log 2 q - 23)
      = (2 : ℚ) ^ (Int.log 2 q + 1) := by
    rw [zpow_sub₀ (by norm_num), zpow_add₀ (by norm_num)]; push_cast; field_simp; ring
  have h2 : q / (2 : ℚ) ^ (Int.log 2 q - 23) ≤ (((2 ^ 24 : Int)) : ℚ) := by
    rw [div_le_iff₀ hu, hpow]
    exact h1.le
  have h3 := roundEven_le h2
  rw [← hpow]
  apply mul_le_mul_of_nonneg_right _ hu.le
  exact_mod_cast h3

theorem float32Pos_mono {q1 q2 : ℚ} (h1 : 0 < q1) (h : q1 ≤ q2) :
    float32Pos q1 ≤ float32Pos q2 := by
  have h2 : 0 < q2 := lt_of_lt_of_le h1 h
  have he : Int.log 2 q1 ≤ Int.log 2 q2 := Int.log_mono_right h1 h
  rcases lt_or_eq_of_le he with hlt | heq
  · calc float32Pos q1 ≤ (2 : ℚ) ^ (Int.log 2 q1 + 1) := float32Pos_le q1
      _ ≤ (2 : ℚ) ^ (Int.log 2 q2) := zpow_le_zpow_right₀ (by norm_num) (by omega)
      _ ≤ float32Pos q2 := float32Pos_ge q2 h2
  · unfold float32Pos
    rw [heq]
    have hu : (0 : ℚ) < (2 : ℚ) ^ (Int.log 2 q2 - 23) := by positivity
    apply mul_le_mul_of_nonneg_right _ hu.le
    have := roundEven_mono (div_le_div_of_nonneg_right h hu.le)
    exact_mod_cast this

/-- Single precision rounding keeps the order of non-negative numbers. -/
theorem float32_mono_nonneg {q1 q2 : ℚ} (h1 : 0 ≤ q1) (h : q1 ≤ q2) :
    float32 q1 ≤ float32 q2 := by
  unfold float32
  rcases eq_or_lt_of_le h1 with h0 | hpos
  · subst h0
    simp only [if_true]
    split_ifs with ha hb
    · exact le_refl _
    · exact le_trans (by positivity) (float32Pos_ge q2 hb)
    · exact absurd (lt_of_le_of_ne h (Ne.symm ha)) hb
  · have h2 : 0 < q2 := lt_of_lt_of_le hpos h
    rw [if_neg hpos.ne', if_pos hpos, if_neg h2.ne', if_pos h2]
    exact float32Pos_mono hpos h

theorem float32_nonneg {q : ℚ} (h : 0 ≤ q) : 0 ≤ float32 q := by
  have h0 : float32 0 = 0 := by simp [float32]
  have := float32_mono_nonneg (le_refl (0 : ℚ)) h
  rwa [h0] at this

/-- The brightening loop over `xx` writes the brightened source byte to every
byte of the row and leaves the other bytes alone. -/
theorem brightenLoop_apply (b : ℚ) (src : Nat → Nat) (srcOff : Nat) (dst : Nat → Nat)
    (dstOff : Nat) (n k : Nat) :
    (List.range n).foldl
        (fun (d : Nat → Nat) (xx : Nat) =>
          Function.update d (dstOff + xx) (brightenByte b (src (srcOff + xx))))
        dst k
      = if dstOff ≤ k ∧ k < dstOff + n then brightenByte b (src (srcOff + (k - dstOff)))
        else dst k := by
  induction n with
  | zero =>
    have h : ¬ (dstOff ≤ k ∧ k < dstOff + 0) := by omega
    rw [if_neg h]
    rfl
  | succ n ih =>
    rw [List.range_succ, List.foldl_append, List.foldl_cons, List.foldl_nil]
    by_cases hk : k = dstOff + n
    · subst hk
      have h : dstOff ≤ dstOff + n ∧ dstOff + n < dstOff + (n + 1) := by omega
      simp [h]
    · rw [Function.update_noteq hk, ih]
      by_cases h1 : dstOff ≤ k ∧ k < dstOff + n
      · have h2 : dstOff ≤ k ∧ k < dstOff + (n + 1) := by omega
        rw [if_pos h1, if_pos h2]
      · have h2 : ¬ (dstOff ≤ k ∧ k < dstOff + (n + 1)) := by omega
        rw [if_neg h1, if_neg h2]

/-- The byte a blitted row holds for a source byte `s`: `s` itself without
brightening, the brightened byte otherwise. -/
theorem blitRow_apply (Brighten : ℚ) (width : Nat) (src : Nat → Nat) (srcOff : Nat)
    (dst : Nat → Nat) (dstOff k : Nat) :
    blitRow Brighten width src srcOff dst dstOff k
      = if dstOff ≤ k ∧ k < dstOff + width then
          (if Brighten = 0 then src (srcOff + (k - dstOff))
           else brightenByte (float32 (Brighten + 1)) (src (srcOff + (k - dstOff))))
        else dst k := by
  unfold blitRow
  by_cases hB : Brighten = 0
  · simp only [hB, if_true, memcpy]
  · simp only [hB, if_false]
    exact brightenLoop_apply _ _ _ _ _ _ _

theorem blitRows_apply (Brighten : ℚ) (bmp : GlyphBitmap) (TexWidth : Nat) (tex : Nat → Nat)
    (dst0 : Nat) (hw : bmp.width ≤ TexWidth) (n : Nat) :
    ∀ (yy xx : Nat), yy < n → xx < bmp.width →
      (List.range n).foldl
          (fun (t : Nat → Nat) (yy : Nat) =>
            blitRow Brighten bmp.width bmp.grayscale (yy * bmp.pitch) t (dst0 + yy * TexWidth))
          tex (dst0 + yy * TexWidth + xx)
        = if Brighten = 0 then bmp.grayscale (yy * bmp.pitch + xx)
          else brightenByte (float32 (Brighten + 1)) (bmp.grayscale (yy * bmp.pitch + xx)) := by
  induction n with
  | zero => intro yy xx hyy; omega
  | succ n ih =>
    intro yy xx hyy hxx
    rw [List.range_succ, List.foldl_append, List.foldl_cons, List.foldl_nil, blitRow_apply]
    by_cases hlast : yy = n
    · subst hlast
      have h : dst0 + yy * TexWidth ≤ dst0 + yy * TexWidth + xx ∧
          dst0 + yy * TexWidth + xx < dst0 + yy * TexWidth + bmp.width := by omega
      rw [if_pos h]
      have hsub : dst0 + yy * TexWidth + xx - (dst0 + yy * TexWidth) = xx := by omega
      rw [hsub]
    · have hlt : yy < n := by omega
      have hmul : (yy + 1) * TexWidth ≤ n * TexWidth := Nat.mul_le_mul_right _ hlt
      have hexp : (yy + 1) * TexWidth = yy * TexWidth + TexWidth := by ring
      have h : ¬ (dst0 + n * TexWidth ≤ dst0 + yy * TexWidth + xx ∧
          dst0 + yy * TexWidth + xx < dst0 + n * TexWidth + bmp.width) := by omega
      rw [if_neg h]
      exact ih yy xx hlt hxx

/-- Without overflow of the `uint32_t` conversion, the brightened byte is
`min(255, floor(fl(s * brighten)))` with `fl` the single precision rounding. -/
theorem brightenByte_eq (brighten : ℚ) (s : Nat) (h0 : 0 ≤ brighten)
    (hlt : float32 ((s : ℚ) * brighten) < 2 ^ 32) :
    brightenByte brighten s = min 255 (⌊float32 ((s : ℚ) * brighten)⌋.toNat) := by
  unfold brightenByte truncToInt
  have hnn : (0 : ℚ) ≤ float32 ((s : ℚ) * brighten) :=
    float32_nonneg (mul_nonneg (Nat.cast_nonneg s) h0)
  rw [if_pos hnn]
  have hfl : ⌊float32 ((s : ℚ) * brighten)⌋ < 2 ^ 32 := by
    have : ((⌊float32 ((s : ℚ) * brighten)⌋ : Int) : ℚ) < ((2 ^ 32 : Int) : ℚ) := by
      push_cast
      exact lt_of_le_of_lt (Int.floor_le _) hlt
    exact_mod_cast this
  have hfl0 : 0 ≤ ⌊float32 ((s : ℚ) * brighten)⌋ := Int.floor_nonneg.mpr hnn
  have : ⌊float32 ((s : ℚ) * brighten)⌋.toNat < 2 ^ 32 := by omega
  rw [Nat.mod_eq_of_lt this]

/-- The texture after a round of the codepoint loop that the merge check did
not skip and whose glyph rasterized to `r`: the blit of the bitmap at the
position the packer answered, with the texture width as row stride. -/
theorem addGlyph_ok {σ : Type} (ext : External σ) (TexWidth TexHeight : Int)
    (cfg : ImFontConfig) (fontFace : FreeTypeFont) (off_y : ℚ) (st : GlyphLoop σ) (c : Nat)
    (r : Rasterized)
    (hskip : (cfg.MergeMode && st.dst_font.FindGlyph (c % 65536)) = false)
    (hr : fontFace.RasterizeGlyph c st.glyphInfo = Except.ok r) :
    ∃ st1, addGlyph ext TexWidth TexHeight cfg fontFace off_y st c = Except.ok st1 ∧
      st1.glyphInfo = r.glyphInfo ∧
      st1.tex = blit cfg.Brighten r.glyphInfo.bmp TexWidth.toNat st.tex
        ((((ext.stbrp_pack_rects st.context [glyphRect r.glyphInfo]).2.headD
              (glyphRect r.glyphInfo)).y : Int) * TexWidth
          + (((ext.stbrp_pack_rects st.context [glyphRect r.glyphInfo]).2.headD
              (glyphRect r.glyphInfo)).x : Int)).toNat := by
  unfold addGlyph
  rw [hskip, hr]
  exact ⟨_, rfl, rfl, rfl⟩

/-- The texture byte of pixel `(xx, yy)` of a glyph after the round of the
codepoint loop that blitted it: the source byte without brightening, the
brightened source byte otherwise. -/
theorem addGlyph_pixel {σ : Type} (ext : External σ) (TexWidth TexHeight : Int)
    (cfg : ImFontConfig) (fontFace : FreeTypeFont) (off_y : ℚ) (st : GlyphLoop σ) (c : Nat)
    (r : Rasterized)
    (hskip : (cfg.MergeMode && st.dst_font.FindGlyph (c % 65536)) = false)
    (hr : fontFace.RasterizeGlyph c st.glyphInfo = Except.ok r)
    (hw : (r.glyphInfo.bmp.width : Int) ≤ TexWidth) :
    ∃ st1, addGlyph ext TexWidth TexHeight cfg fontFace off_y st c = Except.ok st1 ∧
      ∀ (xx yy : Nat), xx < r.glyphInfo.bmp.width → yy < r.glyphInfo.bmp.height →
        st1.tex
            ((((((ext.stbrp_pack_rects st.context [glyphRect r.glyphInfo]).2.headD
                  (glyphRect r.glyphInfo)).y + yy : Nat) : Int) * TexWidth
              + ((((ext.stbrp_pack_rects st.context [glyphRect r.glyphInfo]).2.headD
                  (glyphRect r.glyphInfo)).x + xx : Nat) : Int))).toNat
          = if cfg.Brighten = 0 then
              r.glyphInfo.bmp.grayscale (yy * r.glyphInfo.bmp.pitch + xx)
            else brightenByte (float32 (cfg.Brighten + 1))
              (r.glyphInfo.bmp.grayscale (yy * r.glyphInfo.bmp.pitch + xx)) := by
  obtain ⟨st1, h1, _, htex⟩ :=
    addGlyph_ok ext TexWidth TexHeight cfg fontFace off_y st c r hskip hr
  refine ⟨st1, h1, ?_⟩
  intro xx yy hxx hyy
  have h0 : 0 ≤ TexWidth := le_trans (Int.ofNat_nonneg _) hw
  obtain ⟨T, rfl⟩ := Int.eq_ofNat_of_zero_le h0
  have hwT : r.glyphInfo.bmp.width ≤ T := by exact_mod_cast hw
  rw [htex]
  generalize (ext.stbrp_pack_rects st.context [glyphRect r.glyphInfo]).2.headD
    (glyphRect r.glyphInfo) = rect
  have hd : ((rect.y : Int) * (T : Int) + (rect.x : Int)).toNat = rect.y * T + rect.x := by
    have : ((rect.y : Int) * (T : Int) + (rect.x : Int)) = ((rect.y * T + rect.x : Nat) : Int) := by
      push_cast; rfl
    rw [this, Int.toNat_natCast]
  have hi : ((((rect.y + yy : Nat) : Int)) * (T : Int) + ((rect.x + xx : Nat) : Int)).toNat
      = rect.y * T + rect.x + yy * T + xx := by
    have : ((((rect.y + yy : Nat) : Int)) * (T : Int) + ((rect.x + xx : Nat) : Int))
        = ((rect.y * T + rect.x + yy * T + xx : Nat) : Int) := by
      push_cast; ring
    rw [this, Int.toNat_natCast]
  rw [hd, hi, Int.toNat_natCast]
  exact blitRows_apply cfg.Brighten r.glyphInfo.bmp T st.tex (rect.y * T + rect.x) hwT
    r.glyphInfo.bmp.height yy xx hyy hxx

/-- The byte the code writes for a source byte is monotonic in the source
byte, written with the rounding of the product. -/
theorem brightened_mono (B : ℚ) (hB : 0 ≤ B) (s1 s2 : Nat) (h : s1 ≤ s2) :
    min 255 (⌊float32 ((s1 : ℚ) * B)⌋.toNat) ≤ min 255 (⌊float32 ((s2 : ℚ) * B)⌋.toNat) := by
  have hq : (s1 : ℚ) * B ≤ (s2 : ℚ) * B :=
    mul_le_mul_of_nonneg_right (by exact_mod_cast h) hB
  have hf : float32 ((s1 : ℚ) * B) ≤ float32 ((s2 : ℚ) * B) :=
    float32_mono_nonneg (mul_nonneg (Nat.cast_nonneg s1) hB) hq
  exact min_le_min (le_refl 255) (Int.toNat_le_toNat (Int.floor_mono hf))

/-- C8, as stated, fails: with the brighten factor `b = 0.3f` a glyph whose
bitmap holds the byte `s = 90` is placed at `(x, y) = (0, 0)`, and the round of
the codepoint loop writes 116 to the texture byte of its pixel `(0, 0)`
(`0.3f + 1.0f` is stored as `10905190 / 2 ^ 23`, the product with 90 as
`15335423 / 2 ^ 17 = 116.99999...`), where `min(255, truncate(s * (1 + b)))`
is 117. -/
theorem blit_brightened_byte_differs :
    ∃ st1, addGlyph sampleExternal 16 16 blitConfig blitFace 0 blitStart 65 = Except.ok st1 ∧
      blitFace.RasterizeGlyph 65 blitStart.glyphInfo = Except.ok blitRaster ∧
      ((sampleExternal.stbrp_pack_rects blitStart.context [glyphRect blitRaster.glyphInfo]).2.headD
          (glyphRect blitRaster.glyphInfo)).x = 0 ∧
      ((sampleExternal.stbrp_pack_rects blitStart.context [glyphRect blitRaster.glyphInfo]).2.headD
          (glyphRect blitRaster.glyphInfo)).y = 0 ∧
      0 < blitConfig.Brighten ∧
      blitRaster.glyphInfo.bmp.grayscale (0 * blitRaster.glyphInfo.bmp.pitch + 0) = 90 ∧
      st1.tex ((((0 + 0 : Nat) : Int) * 16 + ((0 + 0 : Nat) : Int))).toNat = 116 ∧
      min 255 (⌊((90 : Nat) : ℚ) * (1 + blitConfig.Brighten)⌋.toNat) = 117 := by
  obtain ⟨st1, h1, hv⟩ := ok_of_map_eq_some
    (addGlyph sampleExternal 16 16 blitConfig blitFace 0 blitStart 65)
    (fun st1 => st1.tex 0) 116 (by decide!)
  exact ⟨st1, h1, by with_unfolding_all rfl, by decide!, by decide!, by decide!, by decide!,
    hv, by decide!⟩

/-- C8, amended: a round of the codepoint loop that is not skipped and whose
glyph rasterizes to a bitmap of width `w <= TexWidth`, height `h` and pitch `p`
returns, and for the position `(x, y)` the packer answered and every pixel
`xx < w`, `yy < h` the texture byte at `(y + yy) * TexWidth + (x + xx)` is the
source byte `s = grayscale[yy * p + xx]` itself when the brighten factor `b` is
`0`, and is `min(255, truncate(fl(s * fl(1 + b))))` when `b > 0`, where `fl` is
the rounding to single precision of the sum and of the product (source bytes
below 256, product within `uint32_t`); for fixed `b > 0` this byte is monotonic
non-decreasing in `s`. -/
theorem addGlyph_blit_postcondition {σ : Type} (ext : External σ) (TexWidth TexHeight : Int)
    (cfg : ImFontConfig) (fontFace : FreeTypeFont) (off_y : ℚ) (st : GlyphLoop σ) (c : Nat)
    (r : Rasterized)
    (hskip : (cfg.MergeMode && st.dst_font.FindGlyph (c % 65536)) = false)
    (hr : fontFace.RasterizeGlyph c st.glyphInfo = Except.ok r)
    (hw : (r.glyphInfo.bmp.width : Int) ≤ TexWidth)
    (hbyte : ∀ i, r.glyphInfo.bmp.grayscale i < 256)
    (hrange : float32 (255 * float32 (cfg.Brighten + 1)) < 2 ^ 32) :
    ∃ st1, addGlyph ext TexWidth TexHeight cfg fontFace off_y st c = Except.ok st1 ∧
      (∀ (xx yy : Nat), xx < r.glyphInfo.bmp.width → yy < r.glyphInfo.bmp.height →
        (cfg.Brighten = 0 →
          st1.tex
              ((((((ext.stbrp_pack_rects st.context [glyphRect r.glyphInfo]).2.headD
                    (glyphRect r.glyphInfo)).y + yy : Nat) : Int) * TexWidth
                + ((((ext.stbrp_pack_rects st.context [glyphRect r.glyphInfo]).2.headD
                    (glyphRect r.glyphInfo)).x + xx : Nat) : Int))).toNat
            = r.glyphInfo.bmp.grayscale (yy * r.glyphInfo.bmp.pitch + xx)) ∧
        (0 < cfg.Brighten →
          st1.tex
              ((((((ext.stbrp_pack_rects st.context [glyphRect r.glyphInfo]).2.headD
                    (glyphRect r.glyphInfo)).y + yy : Nat) : Int) * TexWidth
                + ((((ext.stbrp_pack_rects st.context [glyphRect r.glyphInfo]).2.headD
                    (glyphRect r.glyphInfo)).x + xx : Nat) : Int))).toNat
            = min 255
                (⌊float32
                    (((r.glyphInfo.bmp.grayscale (yy * r.glyphInfo.bmp.pitch + xx) : Nat) : ℚ)
                      * float32 (1 + cfg.Brighten))⌋.toNat))) ∧
      (0 < cfg.Brighten → ∀ s1 s2 : Nat, s1 ≤ s2 →
        min 255 (⌊float32 ((s1 : ℚ) * float32 (1 + cfg.Brighten))⌋.toNat)
          ≤ min 255 (⌊float32 ((s2 : ℚ) * float32 (1 + cfg.Brighten))⌋.toNat)) := by
  obtain ⟨st1, h1, hpix⟩ :=
    addGlyph_pixel ext TexWidth TexHeight cfg fontFace off_y st c r hskip hr hw
  have hBnn : 0 < cfg.Brighten → 0 ≤ float32 (cfg.Brighten + 1) := fun hB =>
    float32_nonneg (by linarith)
  have hin : ∀ s : Nat, s < 256 → 0 < cfg.Brighten →
      float32 ((s : ℚ) * float32 (cfg.Brighten + 1)) < 2 ^ 32 := by
    intro s hs hB
    have hs1 : (s : ℚ) ≤ 255 := by
      have : s ≤ 255 := by omega
      exact_mod_cast this
    exact lt_of_le_of_lt
      (float32_mono_nonneg (mul_nonneg (Nat.cast_nonneg s) (hBnn hB))
        (mul_le_mul_of_nonneg_right hs1 (hBnn hB)))
      hrange
  refine ⟨st1, h1, ?_, ?_⟩
  · intro xx yy hxx hyy
    refine ⟨?_, ?_⟩
    · intro hB
      rw [hpix xx yy hxx hyy, if_pos hB]
    · intro hB
      rw [hpix xx yy hxx hyy, if_neg (ne_of_gt hB),
        brightenByte_eq _ _ (hBnn hB) (hin _ (hbyte _) hB), add_comm cfg.Brighten 1]
  · intro hB s1 s2 hle
    rw [add_comm 1 cfg.Brighten]
    exact brightened_mono _ (hBnn hB) s1 s2 hle

/-- The first round of the codepoint loop over `blitFace` with the brighten
factor `0.3f`, in an empty 16 by 16 texture, meets the premises of
`addGlyph_blit_postcondition`. -/
theorem addGlyph_blit_postcondition_witness :
    (blitConfig.MergeMode && blitStart.dst_font.FindGlyph (65 % 65536)) = false ∧
    blitFace.RasterizeGlyph 65 blitStart.glyphInfo = Except.ok blitRaster ∧
    (blitRaster.glyphInfo.bmp.width : Int) ≤ 16 ∧
    (∀ i, blitRaster.glyphInfo.bmp.grayscale i < 256) ∧
    float32 (255 * float32 (blitConfig.Brighten + 1)) < 2 ^ 32 ∧
    (∃ st1, addGlyph sampleExternal 16 16 blitConfig blitFace 0 blitStart 65 = Except.ok st1 ∧
        (∀ (xx yy : Nat), xx < blitRaster.glyphInfo.bmp.width → yy < blitRaster.glyphInfo.bmp.height →
          (blitConfig.Brighten = 0 →
            st1.tex
                ((((((sampleExternal.stbrp_pack_rects blitStart.context [glyphRect blitRaster.glyphInfo]).2.headD
                      (glyphRect blitRaster.glyphInfo)).y + yy : Nat) : Int) * (16 : Int)
                  + ((((sampleExternal.stbrp_pack_rects blitStart.context [glyphRect blitRaster.glyphInfo]).2.headD
                      (glyphRect blitRaster.glyphInfo)).x + xx : Nat) : Int))).toNat
              = blitRaster.glyphInfo.bmp.grayscale (yy * blitRaster.glyphInfo.bmp.pitch + xx)) ∧
          (0 < blitConfig.Brighten →
            st1.tex
                ((((((sampleExternal.stbrp_pack_rects blitStart.context [glyphRect blitRaster.glyphInfo]).2.headD
                      (glyphRect blitRaster.glyphInfo)).y + yy : Nat) : Int) * (16 : Int)
                  + ((((sampleExternal.stbrp_pack_rects blitStart.context [glyphRect blitRaster.glyphInfo]).2.headD
                      (glyphRect blitRaster.glyphInfo)).x + xx : Nat) : Int))).toNat
              = min 255
                  (⌊float32
                      (((blitRaster.glyphInfo.bmp.grayscale (yy * blitRaster.glyphInfo.bmp.pitch + xx) : Nat) : ℚ)
                        * float32 (1 + blitConfig.Brighten))⌋.toNat))) ∧
        (0 < blitConfig.Brighten → ∀ s1 s2 : Nat, s1 ≤ s2 →
          min 255 (⌊float32 ((s1 : ℚ) * float32 (1 + blitConfig.Brighten))⌋.toNat)
            ≤ min 255 (⌊float32 ((s2 : ℚ) * float32 (1 + blitConfig.Brighten))⌋.toNat))) :=
  ⟨by decide, by with_unfolding_all rfl, by decide,
    fun i => by
      show (if 0 ≤ i ∧ i < 0 + 8 then 90 else 0) < 256
      split_ifs <;> decide,
    by decide!,
    addGlyph_blit_postcondition sampleExternal 16 16 blitConfig blitFace 0 blitStart 65 blitRaster
      (by decide) (by with_unfolding_all rfl) (by decide)
      (fun i => by
        show (if 0 ≤ i ∧ i < 0 + 8 then 90 else 0) < 256
        split_ifs <;> decide)
      (by decide!)⟩

/-! ## C5: duplicates in merge mode -/

theorem FindGlyph_congr (f g : ImFont) (h1 : g.IndexLookup = f.IndexLookup)
    (h2 : g.FallbackGlyph = f.FallbackGlyph) (c : Nat) : g.FindGlyph c = f.FindGlyph c := by
  unfold ImFont.FindGlyph
  rw [h1, h2]

theorem appended_congr (cfg : ImFontConfig) (f g : ImFont) (h1 : g.IndexLookup = f.IndexLookup)
    (h2 : g.FallbackGlyph = f.FallbackGlyph) (cs : List Nat) :
    appended cfg g cs = appended cfg f cs := by
  unfold appended
  congr 1
  funext c
  rw [FindGlyph_congr f g h1 h2]

theorem appended_append (cfg : ImFontConfig) (f : ImFont) (as bs : List Nat) :
    appended cfg f (as ++ bs) = appended cfg f as ++ appended cfg f bs := by
  unfold appended
  rw [List.map_append, List.filter_append]

/-- One round of the codepoint loop leaves the lookup table and the fallback
glyph of the destination font alone and appends at most the codepoint of the
round to its glyph table. -/
theorem addGlyph_font {σ : Type} (ext : External σ) (TexWidth TexHeight : Int)
    (cfg : ImFontConfig) (fontFace : FreeTypeFont) (off_y : ℚ) (st st1 : GlyphLoop σ) (c : Nat)
    (h : addGlyph ext TexWidth TexHeight cfg fontFace off_y st c = Except.ok st1) :
    st1.dst_font.IndexLookup = st.dst_font.IndexLookup ∧
    st1.dst_font.FallbackGlyph = st.dst_font.FallbackGlyph ∧
    st1.dst_font.codepoints = st.dst_font.codepoints ++ appended cfg st.dst_font [c] := by
  unfold addGlyph at h
  split at h
  · next hskip =>
    cases h
    refine ⟨rfl, rfl, ?_⟩
    have hf : (!(cfg.MergeMode && st.dst_font.FindGlyph (c % 65536))) = false := by
      rw [hskip]; rfl
    simp only [appended, List.map_cons, List.map_nil, List.filter_cons, hf, List.filter_nil,
      List.append_nil]
    simp
  · next hskip =>
    split at h
    · cases h
    · cases h
      refine ⟨rfl, rfl, ?_⟩
      have hb : (cfg.MergeMode && st.dst_font.FindGlyph (c % 65536)) = false := by
        simpa using hskip
      have hf : (!(cfg.MergeMode && st.dst_font.FindGlyph (c % 65536))) = true := by
        rw [hb]; rfl
      simp only [appended, List.map_cons, List.map_nil, List.filter_cons, hf, List.filter_nil,
        ImFont.codepoints, List.map_append, makeGlyph]
      simp

theorem addGlyphs_font {σ : Type} (ext : External σ) (TexWidth TexHeight : Int)
    (cfg : ImFontConfig) (fontFace : FreeTypeFont) (off_y : ℚ) (cs : List Nat) :
    ∀ (st st1 : GlyphLoop σ),
      addGlyphs ext TexWidth TexHeight cfg fontFace off_y cs st = Except.ok st1 →
      st1.dst_font.IndexLookup = st.dst_font.IndexLookup ∧
      st1.dst_font.FallbackGlyph = st.dst_font.FallbackGlyph ∧
      st1.dst_font.codepoints = st.dst_font.codepoints ++ appended cfg st.dst_font cs := by
  induction cs with
  | nil =>
    intro st st1 h
    simp only [addGlyphs] at h
    cases h
    simp [appended]
  | cons c cs ih =>
    intro st st1 h
    simp only [addGlyphs] at h
    split at h
    · cases h
    · next st2 h2 =>
      obtain ⟨a1, a2, a3⟩ := addGlyph_font ext TexWidth TexHeight cfg fontFace off_y st st2 c h2
      obtain ⟨b1, b2, b3⟩ := ih st2 st1 h
      refine ⟨b1.trans a1, b2.trans a2, ?_⟩
      rw [b3, a3, appended_congr cfg st.dst_font st2.dst_font a1 a2, List.append_assoc,
        ← appended_append]
      rfl

theorem addRanges_font {σ : Type} (ext : External σ) (TexWidth TexHeight : Int)
    (cfg : ImFontConfig) (fontFace : FreeTypeFont) (off_y : ℚ) (ranges : List Nat) :
    ∀ (st st1 : GlyphLoop σ),
      addRanges ext TexWidth TexHeight cfg fontFace off_y ranges st = Except.ok st1 →
      st1.dst_font.IndexLookup = st.dst_font.IndexLookup ∧
      st1.dst_font.FallbackGlyph = st.dst_font.FallbackGlyph ∧
      st1.dst_font.codepoints
        = st.dst_font.codepoints ++ appended cfg st.dst_font (requestedCodepoints ranges) := by
  induction ranges using requestedCodepoints.induct with
  | case1 lo hi rest hne ih =>
    intro st st1 h
    rw [addRanges, if_pos hne] at h
    split at h
    · cases h
    · next st2 h2 =>
      obtain ⟨a1, a2, a3⟩ :=
        addGlyphs_font ext TexWidth TexHeight cfg fontFace off_y _ st st2 h2
      obtain ⟨b1, b2, b3⟩ := ih st2 st1 h
      refine ⟨b1.trans a1, b2.trans a2, ?_⟩
      rw [b3, a3, appended_congr cfg st.dst_font st2.dst_font a1 a2, List.append_assoc,
        ← appended_append, requestedCodepoints, if_pos hne]
  | case2 lo hi rest hne =>
    intro st st1 h
    rw [addRanges, if_neg hne] at h
    cases h
    simp [requestedCodepoints, hne, appended]
  | case3 r hr =>
    intro st st1 h
    match r, hr with
    | [], _ =>
      simp only [addRanges] at h
      cases h
      simp [requestedCodepoints, appended]
    | [a], _ =>
      simp only [addRanges] at h
      cases h
      simp [requestedCodepoints, appended]
    | a :: b :: rest, hr => exact absurd rfl (hr a b rest)

/-- The destination font after one round of the font loop: the prepared font
with the codepoints appended that the merge check let through, its lookup
table rebuilt. -/
theorem buildFont_font {σ : Type} (ext : External σ) (TexWidth TexHeight : Int)
    (st st1 : FontLoop σ) (cfg : ImFontConfig) (fontFace : FreeTypeFont)
    (h : buildFont ext TexWidth TexHeight st cfg fontFace = Except.ok st1) :
    ∃ (i : Nat) (dst g : ImFont), st.Fonts.get? i = some dst ∧
      st1.Fonts = st.Fonts.set i g.BuildLookupTable ∧
      g.codepoints = (prepareFont cfg fontFace dst).codepoints ++
        appended cfg (prepareFont cfg fontFace dst) (requestedCodepoints cfg.ranges) := by
  unfold buildFont at h
  split at h
  · cases h
  · next i hi =>
    split at h
    · cases h
    · next dst hdst =>
      dsimp only at h
      split at h
      · cases h
      · next g hg =>
        cases h
        obtain ⟨_, _, a3⟩ := addRanges_font ext TexWidth TexHeight cfg fontFace _ _ _ _ hg
        exact ⟨i, dst, g.dst_font, hdst, rfl, a3⟩

theorem BuildLookupTable_tableOk (g : ImFont) (h : g.codepoints.Nodup) :
    g.BuildLookupTable.TableOk := by
  refine ⟨h, ?_⟩
  intro c
  exact Iff.rfl

/-- One round of the font loop keeps every glyph table free of duplicates,
provided the configuration requests no codepoint twice. -/
theorem buildFont_tables {σ : Type} (ext : External σ) (TexWidth TexHeight : Int)
    (st st1 : FontLoop σ) (cfg : ImFontConfig) (fontFace : FreeTypeFont)
    (h : buildFont ext TexWidth TexHeight st cfg fontFace = Except.ok st1)
    (hall : ∀ f ∈ st.Fonts, f.TableOk)
    (hc : ((requestedCodepoints cfg.ranges).map (fun c => c % 65536)).Nodup) :
    ∀ f ∈ st1.Fonts, f.TableOk := by
  obtain ⟨i, dst, g, hdst, hset, hg⟩ := buildFont_font ext TexWidth TexHeight st st1 cfg fontFace h
  have hnew : g.codepoints.Nodup := by
    rw [hg]
    by_cases hm : cfg.MergeMode = true
    · have hdstOk : dst.TableOk := hall dst (List.get?_mem hdst)
      have hcp : (prepareFont cfg fontFace dst).codepoints = dst.codepoints := by
        simp [prepareFont, hm, ImFont.codepoints]
      rw [hcp, List.nodup_append]
      refine ⟨hdstOk.1, List.Nodup.filter _ hc, ?_⟩
      intro c hc1 hc2
      have hfilter := (List.mem_filter.mp hc2).2
      have hlook : c ∈ dst.IndexLookup := (hdstOk.2 c).mpr hc1
      simp [prepareFont, hm, ImFont.FindGlyph, hlook] at hfilter
    · have hcp : (prepareFont cfg fontFace dst).codepoints = [] := by
        simp [prepareFont, hm, ImFont.codepoints]
      have hall2 : appended cfg (prepareFont cfg fontFace dst) (requestedCodepoints cfg.ranges)
          = (requestedCodepoints cfg.ranges).map (fun c => c % 65536) := by
        unfold appended
        simp [hm]
      rw [hcp, hall2, List.nil_append]
      exact hc
  intro f hf
  rw [hset] at hf
  rcases List.mem_or_eq_of_mem_set hf with h1 | h1
  · exact hall f h1
  · rw [h1]
    exact BuildLookupTable_tableOk g hnew

theorem buildFonts_tables {σ : Type} (ext : External σ) (TexWidth TexHeight : Int)
    (work : List (ImFontConfig × FreeTypeFont)) :
    ∀ (st st1 : FontLoop σ), buildFonts ext TexWidth TexHeight work st = Except.ok st1 →
      (∀ f ∈ st.Fonts, f.TableOk) →
      (∀ p ∈ work, ((requestedCodepoints p.1.ranges).map (fun c => c % 65536)).Nodup) →
      ∀ f ∈ st1.Fonts, f.TableOk := by
  induction work with
  | nil =>
    intro st st1 h hall _
    simp only [buildFonts] at h
    cases h
    exact hall
  | cons p rest ih =>
    intro st st1 h hall hc
    obtain ⟨cfg, fontFace⟩ := p
    simp only [buildFonts] at h
    split at h
    · cases h
    · next st2 h2 =>
      exact ih st2 st1 h
        (buildFont_tables ext TexWidth TexHeight st st2 cfg fontFace h2 hall
          (hc (cfg, fontFace) (List.mem_cons_self _ _)))
        (fun q hq => hc q (List.mem_cons_of_mem _ hq))

theorem surveyConfig_ConfigData (d : List Nat) (Fonts : List ImFont) (s s1 : Survey)
    (cfg : ImFontConfig) (h : surveyConfig d Fonts s cfg = Except.ok s1) :
    ∃ cfg1 : ImFontConfig, s1.ConfigData = s.ConfigData ++ [cfg1] ∧
      cfg1.ranges = cfg.GlyphRanges.getD d := by
  unfold surveyConfig at h
  split at h
  · cases h
  · split at h
    · cases h
    · split at h
      · cases h
      · split at h
        · cases h
        · cases h
          refine ⟨_, rfl, ?_⟩
          cases hr : cfg.GlyphRanges <;> simp [ImFontConfig.ranges, hr]

/-- The configurations the first pass hands to the second are those of the
atlas with the default ranges filled in. -/
theorem surveyLoop_ConfigData (d : List Nat) (Fonts : List ImFont)
    (configs : List ImFontConfig) :
    ∀ (s s1 : Survey), surveyLoop d Fonts configs s = Except.ok s1 →
      ∀ c1 ∈ s1.ConfigData, c1 ∈ s.ConfigData ∨
        ∃ cfg ∈ configs, c1.ranges = cfg.GlyphRanges.getD d := by
  induction configs with
  | nil =>
    intro s s1 h c1 hc1
    simp only [surveyLoop] at h
    cases h
    exact Or.inl hc1
  | cons cfg rest ih =>
    intro s s1 h c1 hc1
    simp only [surveyLoop] at h
    split at h
    · cases h
    · next s2 h2 =>
      obtain ⟨cfg1, hcd, hr⟩ := surveyConfig_ConfigData d Fonts s s2 cfg h2
      rcases ih s2 s1 h c1 hc1 with h3 | ⟨cfg2, hmem, hr2⟩
      · rw [hcd, List.mem_append, List.mem_singleton] at h3
        rcases h3 with h4 | h4
        · exact Or.inl h4
        · exact Or.inr ⟨cfg, List.mem_cons_self _ _, by rw [h4]; exact hr⟩
      · exact Or.inr ⟨cfg2, List.mem_cons_of_mem _ hmem, hr2⟩

/-- C5, amended: in every build that returns, if every destination font starts
with a glyph table without duplicate codepoints that its lookup table reflects,
and no configuration requests a codepoint twice (its ranges, the default
ranges where it has none, do not overlap each other), then after the build no
destination font holds two glyph records with the same codepoint, in merge
mode or not. -/
theorem BuildFontAtlas_no_duplicate_codepoints {σ : Type} (ext : External σ)
    (atlas : ImFontAtlas) (r : Bool × ImFontAtlas)
    (h : BuildFontAtlas ext atlas = Except.ok r)
    (hfonts : ∀ f ∈ atlas.Fonts, f.TableOk)
    (hranges : ∀ cfg ∈ atlas.ConfigData,
      ((requestedCodepoints (cfg.GlyphRanges.getD ext.GetGlyphRangesDefault)).map
        (fun c => c % 65536)).Nodup) :
    ∀ f ∈ r.2.Fonts, (f.Glyphs.map Glyph.Codepoint).Nodup := by
  obtain ⟨s, st, hs, hst, _, _, _, hf⟩ := BuildFontAtlas_ok ext atlas r h
  have hwork : ∀ p ∈ s.ConfigData.zip s.fonts,
      ((requestedCodepoints p.1.ranges).map (fun c => c % 65536)).Nodup := by
    intro p hp
    obtain ⟨c1, face⟩ := p
    have hc1 := (List.of_mem_zip hp).1
    rcases surveyLoop_ConfigData _ _ _ _ _ hs c1 hc1 with h1 | ⟨cfg, hmem, hr⟩
    · simp [Survey.start] at h1
    · show ((requestedCodepoints c1.ranges).map (fun c => c % 65536)).Nodup
      rw [hr]
      exact hranges cfg hmem
  intro f hmem
  rw [hf] at hmem
  exact (buildFonts_tables ext _ _ _ _ st hst hfonts hwork f hmem).1

/-- C5, as stated, fails: a merge-mode configuration whose ranges
`0x42 .. 0x43` and `0x43 .. 0x44` overlap each other, merged into a font that
holds `0x41 .. 0x42`, skips `0x42` (found in the lookup table) but appends
`0x43` twice: the lookup table is not rebuilt inside the loop. -/
theorem merge_mode_appends_duplicate :
    ∃ r, BuildFontAtlas sampleExternal overlappingMergeAtlas = Except.ok r ∧
      r.2.Fonts.map (fun f => f.Glyphs.map Glyph.Codepoint) = [[65, 66, 67, 67, 68]] ∧
      ¬ (∀ f ∈ r.2.Fonts, (f.Glyphs.map Glyph.Codepoint).Nodup) := by
  obtain ⟨r, hr, hcp⟩ := ok_of_map_eq_some
    (BuildFontAtlas sampleExternal overlappingMergeAtlas)
    (fun r => r.2.Fonts.map (fun f => f.Glyphs.map Glyph.Codepoint))
    [[65, 66, 67, 67, 68]] (by decide!)
  refine ⟨r, hr, hcp, ?_⟩
  intro hall
  have hnd : ∀ l ∈ r.2.Fonts.map (fun f => f.Glyphs.map Glyph.Codepoint), l.Nodup := by
    intro l hl
    obtain ⟨f, hf, rfl⟩ := List.mem_map.mp hl
    exact hall f hf
  rw [hcp] at hnd
  exact absurd (hnd _ (List.mem_singleton.mpr rfl)) (by decide)

/-- A build that fills a fresh font with `0x41 .. 0x42` and then merges
`0x42 .. 0x43` meets the premises of `BuildFontAtlas_no_duplicate_codepoints`. -/
theorem BuildFontAtlas_no_duplicate_codepoints_witness :
    ∃ r, BuildFontAtlas sampleExternal disjointMergeAtlas = Except.ok r ∧
      (∀ f ∈ disjointMergeAtlas.Fonts, f.TableOk) ∧
      (∀ cfg ∈ disjointMergeAtlas.ConfigData,
        ((requestedCodepoints (cfg.GlyphRanges.getD sampleExternal.GetGlyphRangesDefault)).map
          (fun c => c % 65536)).Nodup) ∧
      ∀ f ∈ r.2.Fonts, (f.Glyphs.map Glyph.Codepoint).Nodup :=
  have hfonts : ∀ f ∈ disjointMergeAtlas.Fonts, f.TableOk := by
    intro f hf
    have hf1 : f = freshFont := by
      simpa [disjointMergeAtlas, sampleAtlas] using hf
    rw [hf1]
    exact ⟨by simp [ImFont.codepoints, freshFont],
      fun c => by simp [ImFont.codepoints, freshFont]⟩
  have hranges : ∀ cfg ∈ disjointMergeAtlas.ConfigData,
      ((requestedCodepoints (cfg.GlyphRanges.getD sampleExternal.GetGlyphRangesDefault)).map
        (fun c => c % 65536)).Nodup := by
    decide!
  ⟨_, by with_unfolding_all rfl, hfonts, hranges,
    BuildFontAtlas_no_duplicate_codepoints sampleExternal disjointMergeAtlas _
      (by with_unfolding_all rfl) hfonts hranges⟩

/-! ## C3, C4, C6: the code at the failing inputs -/

/-- C3, the code at the failing input: in a build with a texture 2 pixels wide
the packer cannot place the 3 by 3 rectangle of the glyph and marks it
unplaced (`was_packed = false`, coordinates `0xffff`); `BuildFontAtlas` still
returns `true`, has blitted the glyph at offset `0xffff * 2 + 0xffff`, and has
appended the glyph record. -/
theorem BuildFontAtlas_ignores_failed_placement :
    (∀ (c : Shelf) (q : stbrp_rect), c.width = 2 → q.w = 3 →
      (c.packOne q).2.was_packed = false ∧ (c.packOne q).2.x = 65535 ∧
        (c.packOne q).2.y = 65535) ∧
    ∃ r, BuildFontAtlas sampleExternal narrowAtlas = Except.ok r ∧
      r.1 = true ∧ r.2.TexWidth = 2 ∧
      r.2.Fonts.map (fun f => f.Glyphs.map Glyph.Codepoint) = [[65]] ∧
      r.2.TexPixelsAlpha8.map (fun tex => tex (65535 * 2 + 65535)) = some 200 := by
  constructor
  · intro c q hc hq
    have hcond : ¬ ((q.w : Int) ≤ c.width ∧ ((c.nextY + q.h : Nat) : Int) ≤ c.height) := by
      rw [hc, hq]; intro h; omega
    rw [Shelf.packOne, if_neg hcond]
    exact ⟨rfl, rfl, rfl⟩
  · obtain ⟨r, hr, hv⟩ := ok_of_map_eq_some (BuildFontAtlas sampleExternal narrowAtlas)
      (fun r => (r.1, r.2.TexWidth, r.2.Fonts.map (fun f => f.Glyphs.map Glyph.Codepoint),
        r.2.TexPixelsAlpha8.map (fun tex => tex (65535 * 2 + 65535))))
      (true, 2, [[65]], some 200) (by decide!)
    simp only [Prod.mk.injEq] at hv
    exact ⟨r, hr, hv.1, hv.2.1, hv.2.2.1, hv.2.2.2⟩

/-- C4, the code at the failing input: the face cannot load `0x42`, so
`RasterizeGlyph` returns `false` with an empty bitmap; `BuildFontAtlas` still
requests a 1 by 1 rectangle from the packer for it (the third request, after
the reserved rectangle and the glyph of `0x41`) and appends a glyph record for
`0x42`, whose advance and quad are those left over from `0x41`. -/
theorem BuildFontAtlas_records_missing_glyph :
    (∃ g, (FreeTypeFont.RasterizeGlyph
        { m_ascender := 2, m_descender := -1, m_maxAdvanceWidth := 2, m_face := gappyFace }
        66 zeroGlyphInfo) = Except.ok g ∧ g.ret = false ∧ g.glyphInfo.bmp.width = 0 ∧
        g.glyphInfo.bmp.height = 0) ∧
    (∃ st, buildFonts sampleExternal (texWidthOf gappyAtlas (surveyOf sampleExternal gappyAtlas))
        (texHeightOf sampleExternal gappyAtlas (surveyOf sampleExternal gappyAtlas))
        ((surveyOf sampleExternal gappyAtlas).ConfigData.zip
          (surveyOf sampleExternal gappyAtlas).fonts)
        (fontLoopStart sampleExternal gappyAtlas (surveyOf sampleExternal gappyAtlas))
          = Except.ok st ∧
      st.context.requests = [(5, 3), (2, 2), (1, 1)]) ∧
    ∃ r, BuildFontAtlas sampleExternal gappyAtlas = Except.ok r ∧
      r.1 = true ∧
      r.2.Fonts.map (fun f => f.Glyphs.map Glyph.Codepoint) = [[65, 66]] ∧
      r.2.Fonts.map (fun f => f.Glyphs.map Glyph.XAdvance) = [[1, 1]] ∧
      r.2.Fonts.map (fun f => f.Glyphs.map (fun g => g.X1 - g.X0)) = [[1, 1]] := by
  refine ⟨⟨_, rfl, rfl, rfl, rfl⟩, ?_, ?_⟩
  · obtain ⟨st, hst, hv⟩ := ok_of_map_eq_some
      (buildFonts sampleExternal (texWidthOf gappyAtlas (surveyOf sampleExternal gappyAtlas))
        (texHeightOf sampleExternal gappyAtlas (surveyOf sampleExternal gappyAtlas))
        ((surveyOf sampleExternal gappyAtlas).ConfigData.zip
          (surveyOf sampleExternal gappyAtlas).fonts)
        (fontLoopStart sampleExternal gappyAtlas (surveyOf sampleExternal gappyAtlas)))
      (fun st => st.context.requests) [(5, 3), (2, 2), (1, 1)] (by decide!)
    exact ⟨st, hst, hv⟩
  · obtain ⟨r, hr, hv⟩ := ok_of_map_eq_some (BuildFontAtlas sampleExternal gappyAtlas)
      (fun r => (r.1, r.2.Fonts.map (fun f => f.Glyphs.map Glyph.Codepoint),
        r.2.Fonts.map (fun f => f.Glyphs.map Glyph.XAdvance),
        r.2.Fonts.map (fun f => f.Glyphs.map (fun g => g.X1 - g.X0))))
      (true, [[65, 66]], [[1, 1]], [[1, 1]]) (by decide!)
    simp only [Prod.mk.injEq] at hv
    exact ⟨r, hr, hv.1, hv.2.1, hv.2.2.1, hv.2.2.2⟩

/-- C6, the code at the failing input: in the build with a texture 2 pixels
wide, the record appended for the glyph the packer could not place has
`U0 = 0xffff / 2` and `U1 = (0xffff + 2) / 2`, far outside `[0, 1]`. -/
theorem BuildFontAtlas_UV_outside_texture :
    ∃ r, BuildFontAtlas sampleExternal narrowAtlas = Except.ok r ∧
      r.2.Fonts.map (fun f => f.Glyphs.map (fun g => (g.U0, g.U1)))
        = [[(65535 / 2, 65537 / 2)]] ∧
      ¬ (∀ f ∈ r.2.Fonts, ∀ g ∈ f.Glyphs, g.U0 ≤ g.U1 ∧ g.U1 ≤ 1) := by
  obtain ⟨r, hr, hv⟩ := ok_of_map_eq_some (BuildFontAtlas sampleExternal narrowAtlas)
    (fun r => r.2.Fonts.map (fun f => f.Glyphs.map (fun g => (g.U0, g.U1))))
    [[(65535 / 2, 65537 / 2)]] (by decide!)
  refine ⟨r, hr, hv, ?_⟩
  intro hall
  have hb : ∀ l ∈ r.2.Fonts.map (fun f => f.Glyphs.map (fun g => (g.U0, g.U1))),
      ∀ p ∈ l, p.2 ≤ (1 : ℚ) := by
    intro l hl p hp
    obtain ⟨f, hf, rfl⟩ := List.mem_map.mp hl
    obtain ⟨g, hg, rfl⟩ := List.mem_map.mp hp
    exact (hall f hf g hg).2
  rw [hv] at hb
  have h1 := hb _ (List.mem_singleton.mpr rfl) _ (List.mem_singleton.mpr rfl)
  norm_num at h1

end ImGuiFreeType
